import Mathlib

/-!
Verification of the bot-scenario QA validator (`bot_validator.py`, `main.py`).

The validator walks an untyped JSON document (flows, pages, handlers, intents,
entities) and produces a list of findings.  This file gives a shallow embedding
of that code: JSON values are an inductive type, Python dictionary access,
truthiness, iteration, `in`-membership and set insertion are modelled as total
Lean functions that return `Except` where the Python operation can raise, and
the one `try/except` at the boundary of `validate_bot_json` (resp. the inner
`try` of the condition checker) is modelled by converting a pending exception
into the `ValidationError` (resp. parse `ConditionError`) finding, exactly as
the source does.
-/

/-- JSON values, the input domain of the validator (the result of `json.load`).
Numbers are modelled as integers; the validator never does arithmetic on them. -/
inductive Json where
  | null
  | bool (b : Bool)
  | num (n : Int)
  | str (s : String)
  | arr (elems : List Json)
  | obj (fields : List (String × Json))

/-- Opening brace character (written numerically to keep braces out of literals). -/
def braceO : Char := Char.ofNat 123

/-- Closing brace character. -/
def braceC : Char := Char.ofNat 125

/-- Python truthiness (`bool(x)`), used by `if x:` / `x and y`. -/
def Json.truthy : Json → Bool
  | .null => false
  | .bool b => b
  | .num n => n != 0
  | .str s => !s.data.isEmpty
  | .arr xs => !xs.isEmpty
  | .obj fs => !fs.isEmpty

/-- `isinstance(x, dict)`. -/
def Json.isObj : Json → Bool
  | .obj _ => true
  | _ => false

/-- `isinstance(x, list)`. -/
def Json.isArr : Json → Bool
  | .arr _ => true
  | _ => false

/-- `isinstance(x, str)`. -/
def Json.isStr : Json → Bool
  | .str _ => true
  | _ => false

/-- The underlying list of a JSON array (only used under an `isArr` guard). -/
def Json.asArr : Json → List Json
  | .arr xs => xs
  | _ => []

/-- First-match association lookup in an object's field list. -/
def jfind : List (String × Json) → String → Option Json
  | [], _ => none
  | (k, v) :: rest, key => if k = key then some v else jfind rest key

/-- `d.get(key, default)` on a dict; on a non-dict the call sites are always
guarded by an `isinstance(_, dict)` check, so the fallback branch is unreachable. -/
def Json.getD (j : Json) (key : String) (dflt : Json) : Json :=
  match j with
  | .obj fs => match jfind fs key with
    | some v => v
    | none => dflt
  | _ => dflt

/-- `key in d` for a dict. -/
def Json.hasKey (j : Json) (key : String) : Bool :=
  match j with
  | .obj fs => fs.any (fun kv => kv.1 == key)
  | _ => false

/-- Python `==` restricted to the values that actually get compared in the
modelled code: `True == 1` and `False == 0` hold, as in Python.  Containers are
compared against non-containers (always unequal); container-vs-container
comparisons never occur, because every set already rejects unhashable values
before a comparison could happen. -/
def pyEq : Json → Json → Bool
  | .null, .null => true
  | .bool a, .bool b => a == b
  | .bool a, .num n => (if a then (1 : Int) else 0) == n
  | .num n, .bool a => n == (if a then (1 : Int) else 0)
  | .num a, .num b => a == b
  | .str a, .str b => a == b
  | _, _ => false

/-- Membership in a Python set modelled as a list (`x in s`). -/
def pyMem (x : Json) (s : List Json) : Bool :=
  s.any (pyEq x)

/-- Hashability: lists and dicts are unhashable, everything else is hashable. -/
def Json.hashable : Json → Bool
  | .arr _ => false
  | .obj _ => false
  | _ => true

/-- `s.add(x)` on a Python set: raises `TypeError` on an unhashable value,
otherwise inserts (first occurrence kept, so the length is the number of
distinct values). -/
def pySetAdd (s : List Json) (x : Json) : Except String (List Json) :=
  if x.hashable then .ok (if pyMem x s then s else s ++ [x]) else .error "unhashable type"

/-- `x in s` on a Python set: raises `TypeError` on an unhashable value. -/
def pyMemChk (x : Json) (s : List Json) : Except String Bool :=
  if x.hashable then .ok (pyMem x s) else .error "unhashable type"

/-- Literal-prefix matcher on character lists; returns the rest on success. -/
def matchLit : List Char → List Char → Option (List Char)
  | [], l => some l
  | _ :: _, [] => none
  | p :: ps, c :: cs => if p = c then matchLit ps cs else none

/-- Substring containment (`sub in s` for strings). -/
def containsSub (pat : List Char) : List Char → Bool
  | [] => pat.isEmpty
  | c :: rest => (matchLit pat (c :: rest)).isSome || containsSub pat rest

/-- `key in j`: dict-key membership, list-element equality, string containment;
`TypeError` on anything else (numbers, booleans). -/
def pyContains (j : Json) (key : String) : Except String Bool :=
  match j with
  | .obj fs => .ok (fs.any (fun kv => kv.1 == key))
  | .arr xs => .ok (xs.any (fun x => pyEq x (.str key)))
  | .str s => .ok (containsSub key.data s.data)
  | _ => .error "argument of type is not iterable"

/-- `j[key]` with a string key: only dicts support it; lists and strings raise
`TypeError`, everything else too. -/
def pySubscript (j : Json) (key : String) : Except String Json :=
  match j with
  | .obj fs => match jfind fs key with
    | some v => .ok v
    | none => .error "KeyError"
  | _ => .error "indices must be integers"

/-- `for x in j`: lists yield elements, strings yield one-character strings,
dicts yield their keys; `None`, numbers and booleans raise `TypeError`. -/
def pyIter (j : Json) : Except String (List Json) :=
  match j with
  | .arr xs => .ok xs
  | .str s => .ok (s.data.map (fun c => Json.str (String.mk [c])))
  | .obj fs => .ok (fs.map (fun kv => Json.str kv.1))
  | _ => .error "object is not iterable"

/-- `a + b` followed by iteration of the result (the
`openIntents + userIntents` pattern): list+list concatenates, str+str
concatenates then iterates characters, number/boolean additions produce a
non-iterable, and mixed operands raise `TypeError` at the `+`. -/
def pyConcatIter (a b : Json) : Except String (List Json) :=
  match a, b with
  | .arr xs, .arr ys => .ok (xs ++ ys)
  | .str s, .str t => .ok ((s.data ++ t.data).map (fun c => Json.str (String.mk [c])))
  | .num _, .num _ => .error "int is not iterable"
  | .num _, .bool _ => .error "int is not iterable"
  | .bool _, .num _ => .error "int is not iterable"
  | .bool _, .bool _ => .error "int is not iterable"
  | _, _ => .error "unsupported operand type for +"

/-- `len(j)`: defined for lists, strings and dicts, raises otherwise. -/
def pyLen (j : Json) : Except String Nat :=
  match j with
  | .arr xs => .ok xs.length
  | .str s => .ok s.data.length
  | .obj fs => .ok fs.length
  | _ => .error "object has no len"

/-- ASCII whitespace, the characters stripped by `str.strip()` and matched by
the regex class `\s` (restricted to ASCII; the modelled documents use none of
the exotic Unicode space characters). -/
def isWsC (c : Char) : Bool :=
  c == ' ' || c == '\t' || c == '\n' || c == '\r' || c == Char.ofNat 11 || c == Char.ofNat 12

/-- `str.strip()` on a character list. -/
def stripChars (l : List Char) : List Char :=
  ((l.dropWhile isWsC).reverse.dropWhile isWsC).reverse

/-- `str.strip()`. -/
def pyStripS (s : String) : String :=
  String.mk (stripChars s.data)

/-- `s.startswith(pat)`. -/
def prefB (pat : List Char) (l : List Char) : Bool :=
  (matchLit pat l).isSome

/-- First character of the identifier class `[a-zA-Z_]` of the function-call
regex. -/
def funcStart (c : Char) : Bool :=
  c == '_' || ('a' ≤ c && c ≤ 'z') || ('A' ≤ c && c ≤ 'Z')

/-- The word-character class `[a-zA-Z0-9_]` shared by the parameter-reference
regex and the tail of the function-name regex. -/
def wordChar (c : Char) : Bool :=
  funcStart c || ('0' ≤ c && c ≤ '9')

/-- The alternatives of the operator regex
`(==|!=|>=|<=|>|<|EXISTS|NOT EXISTS|IN|NOT|AND|OR|\+|\-|\*|/)`, in the order
the regex tries them. -/
def opAlts : List (List Char) :=
  ["==", "!=", ">=", "<=", ">", "<", "EXISTS", "NOT EXISTS", "IN", "NOT",
   "AND", "OR", "+", "-", "*", "/"].map String.data

/-- Try each regex alternative in order at the current position. -/
def tryAlts : List (List Char) → List Char → Option (String × List Char)
  | [], _ => none
  | a :: rest, l =>
    match matchLit a l with
    | some tail => some (String.mk a, tail)
    | none => tryAlts rest l

/-- `re.findall` for the operator pattern: scan left to right, at each position
try the alternatives in order; on a match emit it and continue after it, else
advance one character.  Fuel is the remaining length (each step consumes at
least one character, so `length` fuel is exact). -/
def scanOpsAux : Nat → List Char → List String
  | 0, _ => []
  | _, [] => []
  | fuel + 1, c :: rest =>
    match tryAlts opAlts (c :: rest) with
    | some (op, tail) => op :: scanOpsAux fuel tail
    | none => scanOpsAux fuel rest

/-- Operator extraction `re.findall(r'(==|...|/)', cond)`. -/
def scanOps (s : String) : List String :=
  scanOpsAux s.data.length s.data

/-- `re.findall` for the function pattern `([a-zA-Z_][a-zA-Z0-9_]*)\s*\(`:
at an identifier start, take the maximal identifier, skip whitespace, and
require an opening parenthesis; on failure advance one character. -/
def scanFuncsAux : Nat → List Char → List String
  | 0, _ => []
  | _, [] => []
  | fuel + 1, c :: rest =>
    if funcStart c then
      match (rest.dropWhile wordChar).dropWhile isWsC with
      | d :: tail =>
        if d = '(' then String.mk (c :: rest.takeWhile wordChar) :: scanFuncsAux fuel tail
        else scanFuncsAux fuel rest
      | [] => scanFuncsAux fuel rest
    else scanFuncsAux fuel rest

/-- Function-name extraction `re.findall(r'([a-zA-Z_][a-zA-Z0-9_]*)\s*\(', cond)`. -/
def scanFuncs (s : String) : List String :=
  scanFuncsAux s.data.length s.data

/-- `re.findall` for the parameter-reference pattern: a brace, a dollar sign,
a nonempty maximal `[a-zA-Z0-9_]+` run and a closing brace; the capture group
(the name) is emitted. -/
def scanRefsAux : Nat → List Char → List String
  | 0, _ => []
  | _, [] => []
  | fuel + 1, c :: rest =>
    if c = braceO then
      match rest with
      | '$' :: r2 =>
        (match r2.dropWhile wordChar, r2.takeWhile wordChar with
         | bc :: tail, _ :: _ =>
            if bc = braceC then String.mk (r2.takeWhile wordChar) :: scanRefsAux fuel tail
            else scanRefsAux fuel rest
         | _, _ => scanRefsAux fuel rest)
      | _ => scanRefsAux fuel rest
    else scanRefsAux fuel rest

/-- Parameter-reference extraction for the pattern matching a brace-dollar
reference. -/
def scanRefs (s : String) : List String :=
  scanRefsAux s.data.length s.data

/-- String-list membership (`x in pythonSetOfStrings`). -/
def strMem (s : String) (l : List String) : Bool :=
  l.any (fun t => t == s)

mutual

/-- Python `repr()`, used for elements printed inside containers. -/
def pyRepr : Json → String
  | .str s => "\x27" ++ s ++ "\x27"
  | .null => "None"
  | .bool true => "True"
  | .bool false => "False"
  | .num n => toString n
  | .arr xs => "[" ++ pyReprList xs ++ "]"
  | .obj fs => "\x7b" ++ pyReprFields fs ++ "\x7d"

/-- Comma-joined `repr` of list elements. -/
def pyReprList : List Json → String
  | [] => ""
  | [x] => pyRepr x
  | x :: y :: rest => pyRepr x ++ ", " ++ pyReprList (y :: rest)

/-- Comma-joined `repr` of dict entries. -/
def pyReprFields : List (String × Json) → String
  | [] => ""
  | [(k, v)] => "\x27" ++ k ++ "\x27: " ++ pyRepr v
  | (k, v) :: kv :: rest => "\x27" ++ k ++ "\x27: " ++ pyRepr v ++ ", " ++ pyReprFields (kv :: rest)

end

/-- Python `str()` / f-string interpolation of a JSON value. -/
def pyStr : Json → String
  | .null => "None"
  | .bool true => "True"
  | .bool false => "False"
  | .num n => toString n
  | .str s => s
  | .arr xs => pyRepr (.arr xs)
  | .obj fs => pyRepr (.obj fs)

/-- `", ".join(items)`: every element must be a string, otherwise `TypeError`. -/
def pyJoin (sep : String) (items : List Json) : Except String String :=
  if items.all Json.isStr then
    .ok (String.intercalate sep (items.map (fun j => match j with | .str s => s | _ => "")))
  else .error "sequence item is not str"

/-- One validation finding, the dict appended to `errors`.  Every append site
in the source sets the four fields `type`, `message`, `location`, `suggestion`;
the kind-specific extra keys (`used_intent`, `used_condition`, `missing_vars`)
are optional. -/
structure Finding where
  type : String
  message : String
  location : String
  suggestion : String
  used_intent : Option Json := none
  used_condition : Option Json := none
  missing_vars : Option (List String) := none

/-- The operator allow-list `allowed_operators`. -/
def allowedOperatorsL : List String :=
  ["/", "*", "+", "-", "==", "!=", ">=", "<=", ">", "<",
   "EXISTS", "NOT EXISTS", "IN", "NOT", "AND", "OR"]

/-- The function allow-list `allowed_functions`. -/
def allowedFunctionsL : List String :=
  ["sum", "getNumber", "isValidDatetime", "getLength", "convertDateFormat",
   "addDays", "isBefore", "trim", "replaceAll", "mergeStrings", "toUpper", "toLower"]

/-- The reserved-word list `reserved_words`. -/
def reservedWordsL : List String :=
  ["True", "\x7b$USER_TEXT_INPUT\x7d", "\x7b$__NLU_INTENT__\x7d", "\x7b$NLU_INTENT\x7d",
   "SLOT_FILLING_COMPLETED", "ASKING_SLOT"]

/-- The allowed event types `allowed_event_types`. -/
def allowedEventTypesL : List String :=
  ["NO_MATCH_EVENT", "PAUSE_EVENT", "WAKE_EVENT", "WEBHOOK_FAILED_EVENT",
   "USER_DIALOG_START", "USER_DIALOG_END", "USER_DIALOG_WAIT_TIMEOUT",
   "USER_BUTTON_CLICK", "USER_FILE_UPLOAD_SUCCESS", "USER_FILE_UPLOAD_FAIL",
   "USER_TRANSFER_AGENT", "BOT_TRANSITION_NOT_ALLOWED"]

/-- `allowed_event_types` as a set of JSON strings (for the `in` check). -/
def allowedEventTypesJ : List Json :=
  allowedEventTypesL.map Json.str

/-- The first `DataStructureError` (document/`context`/`flows` missing). -/
def dsErr1 : Finding :=
  { type := "DataStructureError", message := "유효하지 않은 데이터 구조입니다.",
    location := "전체", suggestion := "올바른 봇 빌더 JSON 파일을 업로드하세요." }

/-- The second `DataStructureError` (`flows` is not a list). -/
def dsErr2 : Finding :=
  { type := "DataStructureError", message := "flows가 리스트가 아닙니다.",
    location := "전체", suggestion := "데이터 구조를 확인하세요." }

/-- A `PageLinkError` for a dangling transition target. -/
def mkPageLinkError (loc : String) (pv : Json) : Finding :=
  { type := "PageLinkError",
    message := "존재하지 않는 페이지로 이동: " ++ pyStr pv,
    location := loc,
    suggestion := "\x27" ++ pyStr pv ++
      "\x27 페이지가 실제로 존재하는지 확인하거나, 올바른 페이지명으로 수정하세요." }

/-- A `HandlerMissing` finding. -/
def mkHandlerMissing (loc : String) : Finding :=
  { type := "HandlerMissing", message := "핸들러가 없는 페이지",
    location := loc, suggestion := "필수 이벤트 핸들러를 추가하세요." }

/-- An `IntentError` for an unregistered intent name. -/
def mkIntentError (loc : String) (iname : Json) : Finding :=
  { type := "IntentError",
    message := "등록되지 않은 Intent명 사용: " ++ pyStr iname,
    location := loc,
    suggestion := pyStr iname ++ "는 등록된 Intent명이 아닙니다.",
    used_intent := some iname }

/-- The boolean-casing `ConditionError` message for a condition string. -/
def casingMsg (cond : String) : String :=
  "조건문 True는 반드시 대소문자 구분하여 \x27True\x27로 입력해야 합니다. 현재: \x27" ++ cond ++ "\x27"

/-- The boolean-casing `ConditionError`. -/
def mkCasingError (loc : String) (cond : String) : Finding :=
  { type := "ConditionError",
    message := casingMsg cond,
    location := loc,
    suggestion := "조건문 \x27" ++ cond ++ "\x27를 \x27True\x27로 수정하세요.",
    used_condition := some (.str cond) }

/-- The `ConditionWarning` listing unresolved parameter references. -/
def mkCondWarning (loc : String) (missing : List String) : Finding :=
  { type := "ConditionWarning",
    message := "조건문에서 참조한 파라미터명(들) " ++ String.intercalate ", " missing ++
      "이(가) parameterPresets, Intent, Entity에 없습니다.",
    location := loc,
    suggestion := String.intercalate ", " missing ++ " 변수가 등록되어 있지 않습니다.",
    missing_vars := some missing }

/-- The disallowed-operator `ConditionError`. -/
def mkOpError (loc : String) (cond op : String) : Finding :=
  { type := "ConditionError",
    message := "허용되지 않은 연산자 사용: " ++ op,
    location := loc,
    suggestion := "조건문에서 허용되지 않은 연산자 \x27" ++ op ++
      "\x27를 사용했습니다. 조건문: \x27" ++ cond ++ "\x27",
    used_condition := some (.str cond) }

/-- The disallowed-function `ConditionError`. -/
def mkFuncError (loc : String) (cond fn : String) : Finding :=
  { type := "ConditionError",
    message := "허용되지 않은 함수 사용: " ++ fn,
    location := loc,
    suggestion := "조건문에서 허용되지 않은 함수 \x27" ++ fn ++
      "\x27를 사용했습니다. 조건문: \x27" ++ cond ++ "\x27",
    used_condition := some (.str cond) }

/-- The parse-failure `ConditionError` produced by the inner `except`. -/
def mkParseError (loc : String) (condJ : Json) (e : String) : Finding :=
  { type := "ConditionError",
    message := "조건문 파싱 오류: " ++ e,
    location := loc,
    suggestion := "조건문 형식을 확인하세요.",
    used_condition := some condJ }

/-- The `EventWarning` for a disallowed event type. -/
def mkEventWarning (loc : String) (et : Json) : Finding :=
  { type := "EventWarning",
    message := "허용되지 않은 이벤트 타입: " ++ pyStr et,
    location := loc,
    suggestion := "허용 이벤트 타입만 사용하세요: " ++ String.intercalate ", " allowedEventTypesL }

/-- The `CustomCheck` finding for one caller-supplied check description. -/
def mkCustomCheck (check : Json) : Finding :=
  { type := "CustomCheck",
    message := "사용자 정의 검수: " ++ pyStr check,
    location := "전체",
    suggestion := "직접 검수 로직을 추가하세요." }

/-- The `ValidationError` produced by the outer `except`. -/
def mkValidationError (e : String) : Finding :=
  { type := "ValidationError",
    message := "검증 중 오류 발생: " ++ e,
    location := "전체",
    suggestion := "데이터 구조를 확인하고 다시 시도하세요." }

/-- Findings emitted so far, paired with a pending uncaught exception (if any);
findings appended before a raise are kept, as with a mutated Python list. -/
abbrev VRes := List Finding × Option String

/-- Sequencing of two result fragments: once an exception is pending, later
code does not run. -/
def vseq (a b : VRes) : VRes :=
  match a.2 with
  | some _ => a
  | none => (a.1 ++ b.1, b.2)

/-- A `for` loop whose body appends findings and may raise. -/
def vloop (f : Json → VRes) : List Json → VRes
  | [] => ([], none)
  | x :: rest => vseq (f x) (vloop f rest)

/-- A flow is processed only if it is a dict with both `name` and `pages`
(lines 171-173 and 179-181 of `bot_validator.py`). -/
def wfFlow (f : Json) : Bool :=
  f.isObj && f.hasKey "name" && f.hasKey "pages"

/-- A page is processed only if it is a dict with `name`. -/
def wfPage (p : Json) : Bool :=
  p.isObj && p.hasKey "name"

/-- Page-name collection over one flow's page items (the first loop, which
builds `page_names` before any check runs). -/
def collectPagesLoop : List Json → List Json → Except String (List Json)
  | acc, [] => .ok acc
  | acc, p :: rest =>
    if wfPage p then
      match pySetAdd acc (p.getD "name" .null) with
      | .ok a2 => collectPagesLoop a2 rest
      | .error e => .error e
    else collectPagesLoop acc rest

/-- Page-name collection over all flows. -/
def collectFlowsLoop : List Json → List Json → Except String (List Json)
  | acc, [] => .ok acc
  | acc, f :: rest =>
    if wfFlow f then
      match pyIter (f.getD "pages" (.arr [])) with
      | .error e => .error e
      | .ok ps =>
        match collectPagesLoop acc ps with
        | .ok a2 => collectFlowsLoop a2 rest
        | .error e => .error e
    else collectFlowsLoop acc rest

/-- Collection of a set of names from entries that are dicts with a truthy
`name` (used for `openIntents`/`userIntents` and for `customEntities`). -/
def namedTruthyLoop : List Json → List Json → Except String (List Json)
  | acc, [] => .ok acc
  | acc, j :: rest =>
    if j.isObj && (j.getD "name" .null).truthy then
      match pySetAdd acc (j.getD "name" .null) with
      | .ok a2 => namedTruthyLoop a2 rest
      | .error e => .error e
    else namedTruthyLoop acc rest

/-- `all_intents`: names of `openIntents + userIntents` entries. -/
def computeAllIntents (ctx : Json) : Except String (List Json) :=
  match pyConcatIter (ctx.getD "openIntents" (.arr [])) (ctx.getD "userIntents" (.arr [])) with
  | .error e => .error e
  | .ok items => namedTruthyLoop [] items

/-- `preset_names`: names of the handler's own `parameterPresets` entries that
are dicts with a `name` key (presence, not truthiness, per line 257). -/
def presetNamesLoop : List Json → List Json → Except String (List Json)
  | acc, [] => .ok acc
  | acc, p :: rest =>
    if p.isObj && p.hasKey "name" then
      match pySetAdd acc (p.getD "name" .null) with
      | .ok a2 => presetNamesLoop a2 rest
      | .error e => .error e
    else presetNamesLoop acc rest

/-- The `transitionTarget` check (lines 195-203): a dict target of type
`CUSTOM` with a truthy `page` not in the page registry yields one
`PageLinkError`. -/
def checkTransition (pageNames : List Json) (loc : String) (h : Json) : VRes :=
  let target := h.getD "transitionTarget" (.obj [])
  if target.isObj && pyEq (target.getD "type" .null) (.str "CUSTOM") then
    let pv := target.getD "page" .null
    if pv.truthy then
      match pyMemChk pv pageNames with
      | .error e => ([], some e)
      | .ok b => if b then ([], none) else ([mkPageLinkError loc pv], none)
    else ([], none)
  else ([], none)

/-- The boolean-casing check (lines 240-248): a nonempty stripped condition
outside the reserved words that equals `true`, `TRUE` or the dead alternative
`'True '` yields the casing `ConditionError`. -/
def boolCasing (loc : String) (cond : String) : List Finding :=
  let st := pyStripS cond
  if !st.data.isEmpty && !strMem st reservedWordsL then
    if st == "true" || st == "TRUE" || st == "True " then [mkCasingError loc cond] else []
  else []

/-- Body of the inner `try` of the condition checker (lines 238-305): casing
check, parameter-reference resolution, operator check, function check, in this
order; a pending second component is the exception the inner `except` will
convert. -/
def condInner (ctx : Json) (allIntents : List Json) (loc : String) (condJ : Json) (h : Json) : VRes :=
  match condJ with
  | .str cond =>
    let es1 := boolCasing loc cond
    match pyIter (h.getD "parameterPresets" (.arr [])) with
    | .error e => (es1, some e)
    | .ok ps =>
      match presetNamesLoop [] ps with
      | .error e => (es1, some e)
      | .ok pnames =>
        match pyIter (ctx.getD "customEntities" (.arr [])) with
        | .error e => (es1, some e)
        | .ok ents =>
          match namedTruthyLoop [] ents with
          | .error e => (es1, some e)
          | .ok entNames =>
            let missing := (scanRefs cond).filter (fun r =>
              !(r == "__NLU_INTENT__") && !(r == "NLU_INTENT") &&
              !pyMem (.str r) pnames && !pyMem (.str r) allIntents && !pyMem (.str r) entNames)
            let es2 := if missing.isEmpty then [] else [mkCondWarning loc missing]
            let es3 := (scanOps cond).filterMap (fun op =>
              if strMem op allowedOperatorsL then none else some (mkOpError loc cond op))
            let es4 := (scanFuncs cond).filterMap (fun fn =>
              if strMem fn allowedFunctionsL || strMem fn reservedWordsL then none
              else some (mkFuncError loc cond fn))
            (es1 ++ es2 ++ es3 ++ es4, none)
  | _ => ([], some "strip is not defined on this value")

/-- The condition checker with its inner `except` (lines 306-314): a pending
exception becomes one parse `ConditionError`; earlier findings are kept. -/
def checkCond (ctx : Json) (allIntents : List Json) (loc : String) (condJ : Json) (h : Json) :
    List Finding :=
  match condInner ctx allIntents loc condJ h with
  | (es, none) => es
  | (es, some e) => es ++ [mkParseError loc condJ e]

/-- The `INTENT` handler check (lines 223-234). -/
def checkIntentHandler (allIntents : List Json) (loc : String) (h : Json) : VRes :=
  let it := h.getD "intentTrigger" (.obj [])
  if it.isObj then
    let iname := it.getD "name" .null
    if iname.truthy then
      match pyMemChk iname allIntents with
      | .error e => ([], some e)
      | .ok b => if b then ([], none) else ([mkIntentError loc iname], none)
    else ([], none)
  else ([], none)

/-- The `EVENT` handler check (lines 317-327). -/
def checkEventHandler (loc : String) (h : Json) : VRes :=
  let et := h.getD "eventTrigger" (.obj [])
  if et.isObj then
    let ty := et.getD "type" .null
    if ty.truthy then
      match pyMemChk ty allowedEventTypesJ with
      | .error e => ([], some e)
      | .ok b => if b then ([], none) else ([mkEventWarning loc ty], none)
    else ([], none)
  else ([], none)

/-- Per-handler detailed check (lines 215-327): intent, condition and event
checks in source order; non-dict handlers are skipped. -/
def checkHandlerDetail (ctx : Json) (allIntents : List Json) (loc : String) (h : Json) : VRes :=
  if h.isObj then
    let hty := h.getD "type" (.str "")
    let condJ := h.getD "conditionStatement" (.str "")
    vseq (if pyEq hty (.str "INTENT") then checkIntentHandler allIntents loc h else ([], none))
      (vseq (if pyEq hty (.str "CONDITION") && condJ.truthy then
               (checkCond ctx allIntents loc condJ h, none)
             else ([], none))
        (if pyEq hty (.str "EVENT") then checkEventHandler loc h else ([], none)))
  else ([], none)

/-- Per-page processing (lines 184-327): the transition loop, the
handler-missing check, then the detailed handler loop. -/
def checkPage (ctx : Json) (allIntents pageNames : List Json) (flowName : Json) (p : Json) :
    VRes :=
  if wfPage p then
    let loc := pyStr flowName ++ " > " ++ pyStr (p.getD "name" .null)
    match pyIter (p.getD "handlers" (.arr [])) with
    | .error e => ([], some e)
    | .ok hs =>
      vseq (vloop (fun h => if h.isObj then checkTransition pageNames loc h else ([], none)) hs)
        (vseq (if (p.getD "handlers" .null).truthy then ([], none)
               else ([mkHandlerMissing loc], none))
          (vloop (fun h => checkHandlerDetail ctx allIntents loc h) hs))
  else ([], none)

/-- Per-flow processing of the check phase. -/
def checkFlow (ctx : Json) (allIntents pageNames : List Json) (f : Json) : VRes :=
  if wfFlow f then
    match pyIter (f.getD "pages" (.arr [])) with
    | .error e => ([], some e)
    | .ok ps => vloop (fun p => checkPage ctx allIntents pageNames (f.getD "name" .null) p) ps
  else ([], none)

/-- The custom-check pass-through (lines 330-337). -/
def customPart (cc : Json) : VRes :=
  if cc.truthy then
    match pyIter cc with
    | .error e => ([], some e)
    | .ok items => (items.map mkCustomCheck, none)
  else ([], none)

/-- The body of `validate_bot_json`'s outer `try`: shape gates, registry
construction (page names are fully collected before any check runs), the check
loops, then custom checks. -/
def validateCore (data : Json) (cc : Json) : VRes :=
  if !data.truthy then ([dsErr1], none)
  else
    match pyContains data "context" with
    | .error e => ([], some e)
    | .ok false => ([dsErr1], none)
    | .ok true =>
      match pySubscript data "context" with
      | .error e => ([], some e)
      | .ok ctx =>
        match pyContains ctx "flows" with
        | .error e => ([], some e)
        | .ok false => ([dsErr1], none)
        | .ok true =>
          match pySubscript ctx "flows" with
          | .error e => ([], some e)
          | .ok flowsJ =>
            match flowsJ with
            | .arr flows =>
              match computeAllIntents ctx with
              | .error e => ([], some e)
              | .ok allIntents =>
                match collectFlowsLoop [] flows with
                | .error e => ([], some e)
                | .ok pageNames =>
                  vseq (vloop (fun f => checkFlow ctx allIntents pageNames f) flows) (customPart cc)
            | _ => ([dsErr2], none)

/-- `validate_bot_json(data, custom_checks)`: the outer `except` converts any
pending exception into one `ValidationError` appended after the findings
already collected, and the function always returns a findings list. -/
def validate_bot_json (data : Json) (custom_checks : Json) : List Finding :=
  match validateCore data custom_checks with
  | (es, none) => es
  | (es, some e) => es ++ [mkValidationError e]

/-- `openai_suggest_fix(error_context, prompt)`.  The source performs a network
call; this embedding models the call by its deterministic credential-absent
fallback (per the spec, a missing credential must degrade to an
oracle-unavailable text rather than raise, and the claims under verification do
not depend on oracle output). -/
def openai_suggest_fix (errorContext instruction : String) : String :=
  "[OpenAI API 키가 설정되지 않았습니다.]"

/-- Wrap an oracle suggestion with the fixed prefix marker unless it is already
present after stripping (lines 358-360 of `bot_validator.py`). -/
def ensureAiTag (s : String) : String :=
  if prefB "AI 제안:".data (pyStripS s).data then s else "AI 제안: " ++ s

/-- The local template suggestion for one finding of a covered kind. -/
def localSuggestion (e : Finding) : String :=
  if e.type == "PageLinkError" then
    e.location ++ "에서 \x27" ++ e.message ++ "\x27 오류가 있습니다. \x27" ++ e.suggestion ++ "\x27"
  else if e.type == "HandlerMissing" then
    e.location ++ "에 핸들러가 없습니다. \x27USER_DIALOG_START\x27 등 기본 핸들러를 추가하세요."
  else if e.type == "ConditionError" then
    e.location ++ "의 조건문을 점검하세요. \x27" ++ e.suggestion ++ "\x27"
  else  -- CustomCheck
    "사용자 정의 검수 항목: " ++ e.message

/-- `suggest_fixes(errors, data, use_openai)` (lines 349-370): oracle-backed
suggestions for `ConditionError`/`PageLinkError`/`IntentError` when the oracle
is enabled, local templates for the four template kinds otherwise; findings of
any other kind append nothing. -/
def suggest_fixes : List Finding → Json → Bool → List String
  | [], _, _ => []
  | e :: rest, data, useO =>
    (if useO && (e.type == "ConditionError" || e.type == "PageLinkError" ||
                 e.type == "IntentError") then
      [ensureAiTag (openai_suggest_fix
        ("오류 설명: " ++ e.message ++ "\n위치: " ++ e.location)
        "이 오류를 어떻게 고치면 좋을지 제안해줘.")]
    else if e.type == "PageLinkError" || e.type == "HandlerMissing" ||
            e.type == "ConditionError" || e.type == "CustomCheck" then
      [localSuggestion e]
    else []) ++ suggest_fixes rest data useO

/-- One row of the Intent summary table (`{'Intent명': ..., '예시 문장': ...}`). -/
structure IntentRow where
  name : Json
  exampleText : String

/-- One row of the Entity summary table. -/
structure EntityRow where
  name : Json
  rep : Json
  synonyms : String

/-- The intents section of `get_intent_entity_summary` (lines 295-314 of
`main.py`): one row and one name-set insertion per dict entry with a truthy
name; partial results are kept when the loop raises (the surrounding `try`
swallows the exception). -/
def intentRowsLoop : List IntentRow → List Json → List Json →
    List IntentRow × List Json × Option String
  | rows, names, [] => (rows, names, none)
  | rows, names, j :: rest =>
    if j.isObj && (j.getD "name" .null).truthy then
      match pySetAdd names (j.getD "name" .null) with
      | .error e => (rows, names, some e)
      | .ok names2 =>
        let sentences := j.getD "sentences" (.arr [])
        match (if sentences.isArr then pyJoin ", " (sentences.asArr.take 3) else .ok "") with
        | .error e => (rows, names2, some e)
        | .ok ex => intentRowsLoop (rows ++ [⟨j.getD "name" .null, ex⟩]) names2 rest
    else intentRowsLoop rows names rest

/-- The intents section applied to `openIntents + userIntents`. -/
def intentsPart (ctx : Json) : List IntentRow × List Json × Option String :=
  match pyConcatIter (ctx.getD "openIntents" (.arr [])) (ctx.getD "userIntents" (.arr [])) with
  | .error e => ([], [], some e)
  | .ok items => intentRowsLoop [] [] items

/-- The `entityValues` inner loop of the entities section (lines 326-340 of
`main.py`): one row per dict value, with the synonyms joined; a join failure
keeps the rows accumulated so far. -/
def entityValuesLoop (nm : Json) : List EntityRow → List Json → List EntityRow × Option String
  | rows, [] => (rows, none)
  | rows, v :: rest =>
    if v.isObj then
      let syns := v.getD "synonyms" (.arr [])
      match (if syns.isArr then pyJoin ", " syns.asArr else .ok "") with
      | .error e => (rows, some e)
      | .ok s => entityValuesLoop nm (rows ++ [⟨nm, v.getD "representative" (.str ""), s⟩]) rest
    else entityValuesLoop nm rows rest

/-- The entities section of `get_intent_entity_summary` (lines 317-342): one
name-set insertion per dict entry with a truthy name, then its values loop. -/
def entityRowsLoop : List EntityRow → List Json → List Json →
    List EntityRow × List Json × Option String
  | rows, names, [] => (rows, names, none)
  | rows, names, j :: rest =>
    if j.isObj && (j.getD "name" .null).truthy then
      match pySetAdd names (j.getD "name" .null) with
      | .error e => (rows, names, some e)
      | .ok names2 =>
        let ev := j.getD "entityValues" (.arr [])
        if ev.isArr then
          match entityValuesLoop (j.getD "name" .null) rows ev.asArr with
          | (rows2, some e) => (rows2, names2, some e)
          | (rows2, none) => entityRowsLoop rows2 names2 rest
        else entityRowsLoop rows names2 rest
    else entityRowsLoop rows names rest

/-- The entities section applied to `customEntities` (the `for entity in
custom_entities` iteration itself can raise on a non-iterable). -/
def entitiesPart (ctx : Json) : List EntityRow × List Json × Option String :=
  match pyIter (ctx.getD "customEntities" (.arr [])) with
  | .error e => ([], [], some e)
  | .ok items => entityRowsLoop [] [] items

/-- `x in cond` for a string `cond`: substring test when `x` is a string,
`TypeError` otherwise. -/
def pyInStrChk (x : Json) (s : String) : Except String Bool :=
  match x with
  | .str t => .ok (containsSub t.data s.data)
  | _ => .error "in requires string as left operand"

/-- The per-condition name scan of the usage analyzer: every truthy declared
name occurring as a substring of the condition text is added to the used set;
partial additions survive a raise. -/
def usedNamesLoop (cond : String) : List Json → List Json → List Json × Option String
  | acc, [] => (acc, none)
  | acc, n :: rest =>
    if n.truthy then
      match pyInStrChk n cond with
      | .error e => (acc, some e)
      | .ok true =>
        match pySetAdd acc n with
        | .error e => (acc, some e)
        | .ok a2 => usedNamesLoop cond a2 rest
      | .ok false => usedNamesLoop cond acc rest
    else usedNamesLoop cond acc rest

/-- One handler's contribution to the used-intent/used-entity sets
(lines 371-386 of `main.py`): the `intentTrigger` name is added
unconditionally (even when `None`), then the condition text is scanned for
declared intent names and then for declared entity names. -/
def usedHandlerStep (iN eN : List Json) (uI uE : List Json) (h : Json) :
    List Json × List Json × Option String :=
  let stepTrig : List Json × Option String :=
    if h.hasKey "intentTrigger" then
      let it := h.getD "intentTrigger" .null
      if it.isObj then
        match pySetAdd uI (it.getD "name" .null) with
        | .error e => (uI, some e)
        | .ok u2 => (u2, none)
      else (uI, none)
    else (uI, none)
  match stepTrig with
  | (uI1, some e) => (uI1, uE, some e)
  | (uI1, none) =>
    let condJ := h.getD "conditionStatement" (.str "")
    if condJ.truthy && condJ.isStr then
      match condJ with
      | .str cond =>
        match usedNamesLoop cond uI1 iN with
        | (uI2, some e) => (uI2, uE, some e)
        | (uI2, none) =>
          match usedNamesLoop cond uE eN with
          | (uE2, oe) => (uI2, uE2, oe)
      | _ => (uI1, uE, none)
    else (uI1, uE, none)

/-- The handler loop of the usage analyzer. -/
def usedHandlersLoop (iN eN : List Json) : List Json → List Json → List Json →
    List Json × List Json × Option String
  | uI, uE, [] => (uI, uE, none)
  | uI, uE, h :: rest =>
    if h.isObj then
      match usedHandlerStep iN eN uI uE h with
      | (uI2, uE2, some e) => (uI2, uE2, some e)
      | (uI2, uE2, none) => usedHandlersLoop iN eN uI2 uE2 rest
    else usedHandlersLoop iN eN uI uE rest

/-- The page loop of the usage analyzer (`handlers` must be a list to be
scanned). -/
def usedPagesLoop (iN eN : List Json) : List Json → List Json → List Json →
    List Json × List Json × Option String
  | uI, uE, [] => (uI, uE, none)
  | uI, uE, p :: rest =>
    if p.isObj then
      let hs := p.getD "handlers" (.arr [])
      if hs.isArr then
        match usedHandlersLoop iN eN uI uE hs.asArr with
        | (uI2, uE2, some e) => (uI2, uE2, some e)
        | (uI2, uE2, none) => usedPagesLoop iN eN uI2 uE2 rest
      else usedPagesLoop iN eN uI uE rest
    else usedPagesLoop iN eN uI uE rest

/-- The flow loop of the usage analyzer (`pages` must be a list). -/
def usedFlowsLoop (iN eN : List Json) : List Json → List Json → List Json →
    List Json × List Json × Option String
  | uI, uE, [] => (uI, uE, none)
  | uI, uE, f :: rest =>
    if f.isObj then
      let ps := f.getD "pages" (.arr [])
      if ps.isArr then
        match usedPagesLoop iN eN uI uE ps.asArr with
        | (uI2, uE2, some e) => (uI2, uE2, some e)
        | (uI2, uE2, none) => usedFlowsLoop iN eN uI2 uE2 rest
      else usedFlowsLoop iN eN uI uE rest
    else usedFlowsLoop iN eN uI uE rest

/-- The usage pass of `get_intent_entity_summary` (lines 358-388): iterate
`context.get('flows', [])` and collect used intent and entity names; the
surrounding `try` keeps partial sets on a raise. -/
def usagePart (ctx : Json) (iN eN : List Json) : List Json × List Json × Option String :=
  match pyIter (ctx.getD "flows" (.arr [])) with
  | .error e => ([], [], some e)
  | .ok fl => usedFlowsLoop iN eN [] [] fl

/-- The four tables returned by `get_intent_entity_summary`: intent rows,
entity rows, intent error rows and entity error rows (each error row is its
message string). -/
structure SummaryResult where
  intents : List IntentRow
  entities : List EntityRow
  intentErrors : List String
  entityErrors : List String

/-- The unused declared intent names (`intent_names - used_intents`). -/
def unusedIntentsOf (ctx : Json) : List Json :=
  let inames := (intentsPart ctx).2.1
  let enames := (entitiesPart ctx).2.1
  let uI := (usagePart ctx inames enames).1
  inames.filter (fun n => !pyMem n uI)

/-- The unused declared entity names (`entity_names - used_entities`). -/
def unusedEntitiesOf (ctx : Json) : List Json :=
  let inames := (intentsPart ctx).2.1
  let enames := (entitiesPart ctx).2.1
  let uE := (usagePart ctx inames enames).2.1
  enames.filter (fun n => !pyMem n uE)

/-- `get_intent_entity_summary(data)` (lines 283-397 of `main.py`).  All inner
loops sit in `try` blocks that swallow exceptions, but the final
`", ".join(unused_...)` calls are outside any `try`, so a non-string unused
name propagates an exception out of the function; hence the `Except` result. -/
def get_intent_entity_summary (data : Json) : Except String SummaryResult :=
  if !data.truthy || !data.isObj || !data.hasKey "context" then .ok ⟨[], [], [], []⟩
  else
    let ctx := data.getD "context" .null
    if !ctx.isObj then .ok ⟨[], [], [], []⟩
    else
      let ip := intentsPart ctx
      let ep := entitiesPart ctx
      let dupI : List String :=
        if ip.2.1.length ≠ ip.1.length then ["중복 Intent명 존재"] else []
      let dupE : List String :=
        match pyLen (ctx.getD "customEntities" (.arr [])) with
        | .ok n => if ep.2.1.length ≠ n then ["중복 Entity명 존재"] else []
        | .error _ => []
      let unusedI := unusedIntentsOf ctx
      let unusedE := unusedEntitiesOf ctx
      match (if unusedI.isEmpty then .ok [] else
              match pyJoin ", " unusedI with
              | .ok s => .ok ["미사용 Intent: " ++ s]
              | .error e => .error e : Except String (List String)) with
      | .error e => .error e
      | .ok iu =>
        match (if unusedE.isEmpty then .ok [] else
                match pyJoin ", " unusedE with
                | .ok s => .ok ["미사용 Entity: " ++ s]
                | .error e => .error e : Except String (List String)) with
        | .error e => .error e
        | .ok eu => .ok ⟨ip.1, ep.1, dupI ++ iu, dupE ++ eu⟩

/-! ### General lemmas about the embedding -/

theorem data_append (a b : String) : (a ++ b).data = a.data ++ b.data := rfl

theorem string_mk_data (s : String) : String.mk s.data = s := by
  cases s
  rfl

theorem cons_append_ne {c d : Char} (a b s t : List Char) (h : c ≠ d) :
    (c :: a) ++ s ≠ (d :: b) ++ t := by
  intro he
  rw [List.cons_append, List.cons_append] at he
  exact h (List.cons.inj he).1

theorem head_dropWhile_false (p : Char → Bool) (l : List Char) (c : Char)
    (h : (l.dropWhile p).head? = some c) : p c = false := by
  induction l with
  | nil => simp [List.dropWhile] at h
  | cons x xs ih =>
    rw [List.dropWhile_cons] at h
    by_cases hx : p x
    · simp [hx] at h
      exact ih h
    · simp [hx] at h
      subst h
      simpa using hx

/-- The stripped form of a string never ends in whitespace, so the dead
comparison with the literal `'True '` can never succeed. -/
theorem pyStripS_ne_True_sp (s : String) : pyStripS s ≠ "True " := by
  intro h
  have hd : stripChars s.data = "True ".data := congrArg String.data h
  have hr : (s.data.dropWhile isWsC).reverse.dropWhile isWsC = "True ".data.reverse := by
    have h2 := congrArg List.reverse hd
    simpa [stripChars] using h2
  have hh : ((s.data.dropWhile isWsC).reverse.dropWhile isWsC).head? = some ' ' := by
    rw [hr]
    rfl
  have hws := head_dropWhile_false isWsC _ _ hh
  simp [isWsC] at hws

theorem takeWhile_append_all (p : Char → Bool) (a b : List Char)
    (ha : ∀ c ∈ a, p c = true) : (a ++ b).takeWhile p = a ++ b.takeWhile p := by
  induction a with
  | nil => simp
  | cons x xs ih =>
    have hx : p x = true := ha x (by simp)
    have ih2 := ih (fun c hc => ha c (by simp [hc]))
    simp [List.takeWhile_cons, hx, ih2]

theorem dropWhile_append_all (p : Char → Bool) (a b : List Char)
    (ha : ∀ c ∈ a, p c = true) : (a ++ b).dropWhile p = b.dropWhile p := by
  induction a with
  | nil => simp
  | cons x xs ih =>
    have hx : p x = true := ha x (by simp)
    have ih2 := ih (fun c hc => ha c (by simp [hc]))
    simp [List.dropWhile_cons, hx, ih2]

theorem vseq_ok (es : List Finding) (b : VRes) : vseq (es, none) b = (es ++ b.1, b.2) := rfl

theorem vseq_raised (es : List Finding) (e : String) (b : VRes) :
    vseq (es, some e) b = (es, some e) := rfl

theorem vseq_nil_left (b : VRes) : vseq ([], none) b = b := by
  simp [vseq]

theorem vseq_assoc (a b c : VRes) : vseq (vseq a b) c = vseq a (vseq b c) := by
  obtain ⟨e1, o1⟩ := a
  cases o1 with
  | none =>
    obtain ⟨e2, o2⟩ := b
    cases o2 with
    | none => simp [vseq, List.append_assoc]
    | some _ => simp [vseq]
  | some _ => simp [vseq]

theorem vseq_snd_none {a b : VRes} (h : (vseq a b).2 = none) : a.2 = none ∧ b.2 = none := by
  obtain ⟨e1, o1⟩ := a
  cases o1 with
  | none => exact ⟨rfl, by simpa [vseq] using h⟩
  | some _ => simp [vseq] at h

theorem vseq_fst_mem {a b : VRes} {e : Finding} (h : e ∈ (vseq a b).1) :
    e ∈ a.1 ∨ e ∈ b.1 := by
  obtain ⟨e1, o1⟩ := a
  cases o1 with
  | none => simpa [vseq] using h
  | some _ => exact Or.inl (by simpa [vseq] using h)

theorem vloop_nil (f : Json → VRes) : vloop f [] = ([], none) := rfl

theorem vloop_cons (f : Json → VRes) (x : Json) (rest : List Json) :
    vloop f (x :: rest) = vseq (f x) (vloop f rest) := rfl

theorem vloop_append (f : Json → VRes) (a b : List Json) :
    vloop f (a ++ b) = vseq (vloop f a) (vloop f b) := by
  induction a with
  | nil => simp [vloop, vseq_nil_left]
  | cons x xs ih => simp [vloop, ih, vseq_assoc]

theorem vloop_snd_none {f : Json → VRes} {l : List Json} (h : (vloop f l).2 = none) :
    ∀ x ∈ l, (f x).2 = none := by
  induction l with
  | nil => simp
  | cons x xs ih =>
    rw [vloop_cons] at h
    have h2 := vseq_snd_none h
    intro y hy
    rcases List.mem_cons.mp hy with hy | hy
    · subst hy; exact h2.1
    · exact ih h2.2 y hy

theorem vseq_fst_of_none {a : VRes} (b : VRes) (h : a.2 = none) :
    (vseq a b).1 = a.1 ++ b.1 := by
  obtain ⟨es, o⟩ := a
  cases o with
  | none => rfl
  | some _ => simp at h

theorem vloop_fst_of_none {f : Json → VRes} {l : List Json} (h : (vloop f l).2 = none) :
    (vloop f l).1 = l.flatMap (fun x => (f x).1) := by
  induction l with
  | nil => simp [vloop]
  | cons x xs ih =>
    rw [vloop_cons] at h ⊢
    obtain ⟨hx, hxs⟩ := vseq_snd_none h
    rw [vseq_fst_of_none _ hx, ih hxs, List.flatMap_cons]

theorem vloop_mem {f : Json → VRes} {l : List Json} {e : Finding}
    (h : e ∈ (vloop f l).1) : ∃ x ∈ l, e ∈ (f x).1 := by
  induction l with
  | nil => simp [vloop] at h
  | cons x xs ih =>
    rw [vloop_cons] at h
    rcases vseq_fst_mem h with h | h
    · exact ⟨x, by simp, h⟩
    · obtain ⟨y, hy, he⟩ := ih h
      exact ⟨y, by simp [hy], he⟩

theorem tryAlts_mem {alts : List (List Char)} {l tail : List Char} {op : String}
    (h : tryAlts alts l = some (op, tail)) : ∃ a ∈ alts, op = String.mk a := by
  induction alts with
  | nil => simp [tryAlts] at h
  | cons a rest ih =>
    rw [tryAlts] at h
    cases hm : matchLit a l with
    | some t2 =>
      rw [hm] at h
      exact ⟨a, by simp, by simpa using (Prod.mk.inj (Option.some.inj h)).1.symm⟩
    | none =>
      rw [hm] at h
      obtain ⟨b, hb, he⟩ := ih h
      exact ⟨b, by simp [hb], he⟩

/-- Every operator alternative, read back as a string, is in the operator
allow-list: the extraction pattern lists exactly the allowed operators. -/
theorem opAlts_allowed : ∀ a ∈ opAlts, strMem (String.mk a) allowedOperatorsL = true := by
  decide

/-- Key fact behind the dead operator check: every operator the regex can
extract is in the allow-list, so `op not in allowed_operators` never holds. -/
theorem scanOpsAux_allowed (fuel : Nat) (l : List Char) :
    ∀ op ∈ scanOpsAux fuel l, strMem op allowedOperatorsL = true := by
  induction fuel generalizing l with
  | zero => simp [scanOpsAux]
  | succ n ih =>
    cases l with
    | nil => simp [scanOpsAux]
    | cons c rest =>
      rw [scanOpsAux]
      cases ht : tryAlts opAlts (c :: rest) with
      | some p =>
        obtain ⟨op0, tail⟩ := p
        intro op hop
        rcases List.mem_cons.mp hop with h | h
        · obtain ⟨a, ha, he⟩ := tryAlts_mem ht
          subst h
          rw [he]
          exact opAlts_allowed a ha
        · exact ih tail op h
      | none =>
        intro op hop
        exact ih rest op hop

/-- Every extracted operator is allowed. -/
theorem scanOps_allowed (s : String) :
    ∀ op ∈ scanOps s, strMem op allowedOperatorsL = true :=
  scanOpsAux_allowed s.data.length s.data

/-- Hence the operator branch of the condition checker contributes nothing,
for every condition string. -/
theorem opErrors_nil (loc cond : String) :
    (scanOps cond).filterMap (fun op =>
      if strMem op allowedOperatorsL then none else some (mkOpError loc cond op)) = [] := by
  rw [List.filterMap_eq_nil_iff]
  intro op hop
  simp [scanOps_allowed cond op hop]

theorem matchLit_isSome_mem {pat l : List Char} (hp : pat ≠ [])
    (h : (matchLit pat l).isSome) : pat.head? = l.head? := by
  cases pat with
  | nil => exact absurd rfl hp
  | cons p ps =>
    cases l with
    | nil => simp [matchLit] at h
    | cons c cs =>
      rw [matchLit] at h
      by_cases hpc : p = c
      · simp [hpc]
      · simp [hpc] at h

/-- If an open parenthesis occurs nowhere in the text, the function regex
matches nothing. -/
theorem scanFuncsAux_no_paren (fuel : Nat) (l : List Char) (h : '(' ∉ l) :
    scanFuncsAux fuel l = [] := by
  induction fuel generalizing l with
  | zero => simp [scanFuncsAux]
  | succ n ih =>
    cases l with
    | nil => simp [scanFuncsAux]
    | cons c rest =>
      have hrest : '(' ∉ rest := fun hm => h (by simp [hm])
      rw [scanFuncsAux]
      by_cases hc : funcStart c
      · rw [if_pos hc]
        cases hd : (rest.dropWhile wordChar).dropWhile isWsC with
        | nil => exact ih rest hrest
        | cons d tail =>
          have hdp : ¬d = '(' := by
            intro hdp
            apply hrest
            have h1 : d ∈ (rest.dropWhile wordChar).dropWhile isWsC := by simp [hd]
            have h2 : d ∈ rest.dropWhile wordChar := (List.dropWhile_sublist _).mem h1
            have h3 : d ∈ rest := (List.dropWhile_sublist _).mem h2
            rw [hdp] at h3
            exact h3
          simp only [if_neg hdp]
          exact ih rest hrest
      · rw [if_neg hc]
        exact ih rest hrest

theorem scanRefsAux_nil (fuel : Nat) : scanRefsAux fuel [] = [] := by
  cases fuel <;> rfl

theorem wordChar_braceC : wordChar braceC = false := by decide

theorem scanRefsAux_frame (fuel : Nat) (v : String) (h1 : v.data ≠ [])
    (h2 : ∀ c ∈ v.data, wordChar c = true) :
    scanRefsAux (fuel + 1) (braceO :: '$' :: (v.data ++ [braceC])) = [v] := by
  have hdrop : (v.data ++ [braceC]).dropWhile wordChar = [braceC] := by
    rw [dropWhile_append_all _ _ _ h2]
    simp [List.dropWhile_cons, wordChar_braceC]
  have htake : (v.data ++ [braceC]).takeWhile wordChar = v.data := by
    rw [takeWhile_append_all _ _ _ h2]
    simp [List.takeWhile_cons, wordChar_braceC]
  obtain ⟨c0, v', hv⟩ := List.exists_cons_of_ne_nil h1
  rw [scanRefsAux]
  simp only [hdrop, htake]
  rw [hv]
  simp [scanRefsAux_nil, ← hv, string_mk_data]

theorem scanRefs_frame (v : String) (h1 : v.data ≠ [])
    (h2 : ∀ c ∈ v.data, wordChar c = true) :
    scanRefs ("\x7b$" ++ v ++ "\x7d") = [v] := by
  have hdata : ("\x7b$" ++ v ++ "\x7d").data = braceO :: '$' :: (v.data ++ [braceC]) := by
    rw [data_append, data_append]
    have h3 : "\x7b$".data = [braceO, '$'] := by decide
    have h4 : "\x7d".data = [braceC] := by decide
    rw [h3, h4]
    simp
  unfold scanRefs
  rw [hdata]
  have hlen : (braceO :: '$' :: (v.data ++ [braceC])).length = (v.data.length + 2) + 1 := by
    simp
  rw [hlen]
  exact scanRefsAux_frame _ v h1 h2

theorem no_paren_frame (v : String) (h2 : ∀ c ∈ v.data, wordChar c = true) :
    scanFuncs ("\x7b$" ++ v ++ "\x7d") = [] := by
  have hdata : ("\x7b$" ++ v ++ "\x7d").data = braceO :: '$' :: (v.data ++ [braceC]) := by
    rw [data_append, data_append]
    have h3 : "\x7b$".data = [braceO, '$'] := by decide
    have h4 : "\x7d".data = [braceC] := by decide
    rw [h3, h4]
    simp
  have hnp : '(' ∉ (braceO :: '$' :: (v.data ++ [braceC])) := by
    intro hmem
    simp at hmem
    rcases hmem with h | h | h
    · exact absurd h (by decide)
    · exact absurd (h2 '(' h) (by decide)
    · exact absurd h (by decide)
  unfold scanFuncs
  rw [hdata]
  exact scanFuncsAux_no_paren _ _ hnp

/-! ### Fixture documents -/

/-- A single `CONDITION` handler carrying only a condition string. -/
def condOnlyHandler (c : String) : Json :=
  .obj [("type", .str "CONDITION"), ("conditionStatement", .str c)]

/-- A document with one flow `F1` and one page `P1` holding one `CONDITION`
handler with condition `c`. -/
def condOnlyDoc (c : String) : Json :=
  .obj [("context", .obj [("flows", .arr
    [.obj [("name", .str "F1"), ("pages", .arr
      [.obj [("name", .str "P1"), ("handlers", .arr [condOnlyHandler c])]])]])])]

/-! ### Claim C2 -/

/-- C2: the claim says a condition containing both a disallowed operator and a
disallowed function yields a `ConditionError` for each.  The code cannot do
this: the operator-extraction pattern's alternatives are exactly the sixteen
allowed operators, so the guard `op not in allowed_operators` is dead code and
no operator `ConditionError` is ever produced.  On the failing input
`"a % foo(b)"` — which contains the disallowed operator `%` and the disallowed
function `foo` — the whole validator emits only the single function
`ConditionError`; the final conjunct shows the operator branch contributes
nothing for every condition string and location. -/
theorem c2_operator_check_dead :
    validate_bot_json (condOnlyDoc "a % foo(b)") Json.null =
      [mkFuncError "F1 > P1" "a % foo(b)" "foo"] ∧
    containsSub "%".data "a % foo(b)".data = true ∧
    scanOps "a % foo(b)" = [] ∧
    (∀ loc cond : String,
      (scanOps cond).filterMap (fun op =>
        if strMem op allowedOperatorsL then none else some (mkOpError loc cond op)) = []) :=
  ⟨rfl, rfl, rfl, fun loc cond => opErrors_nil loc cond⟩

/-! ### Claim C4 -/

/-- The finding kinds that produce a suggestion: the oracle kinds when the
oracle is enabled, plus the four locally-templated kinds. -/
def coveredKind (useO : Bool) (e : Finding) : Bool :=
  (useO && (e.type == "ConditionError" || e.type == "PageLinkError" ||
            e.type == "IntentError")) ||
  (e.type == "PageLinkError" || e.type == "HandlerMissing" ||
   e.type == "ConditionError" || e.type == "CustomCheck")

/-- The suggestion text produced for one covered finding. -/
def suggestionFor (useO : Bool) (e : Finding) : String :=
  if useO && (e.type == "ConditionError" || e.type == "PageLinkError" ||
              e.type == "IntentError") then
    ensureAiTag (openai_suggest_fix
      ("오류 설명: " ++ e.message ++ "\n위치: " ++ e.location)
      "이 오류를 어떻게 고치면 좋을지 제안해줘.")
  else localSuggestion e

/-- C4 counterexample: the claim says `suggest_fixes` is positionally aligned
with its input, with an empty string at the position of a finding covered by
neither suggestion path.  A `DataStructureError` finding is covered by neither
path, and `suggest_fixes` returns the empty list for the singleton input —
zero entries for one finding, with the oracle disabled or enabled — instead of
`[""]`. -/
theorem c4_counterexample :
    suggest_fixes [dsErr1] Json.null false = [] ∧
    suggest_fixes [dsErr1] Json.null true = [] ∧
    ([dsErr1] : List Finding).length = 1 :=
  ⟨rfl, rfl, rfl⟩

/-- C4 amended: `suggest_fixes` returns one suggestion per finding of a
covered kind, in input order; findings of kinds covered by neither the local
template path nor the (enabled) oracle path are skipped entirely rather than
contributing an empty string, so the output is positionally aligned with the
input only when every finding's kind is covered. -/
theorem c4_amended (es : List Finding) (d : Json) (b : Bool) :
    suggest_fixes es d b = (es.filter (coveredKind b)).map (suggestionFor b) := by
  induction es with
  | nil => rfl
  | cons e rest ih =>
    rw [suggest_fixes]
    by_cases h1 : (b && (e.type == "ConditionError" || e.type == "PageLinkError" ||
                        e.type == "IntentError")) = true
    · have hc : coveredKind b e = true := by simp [coveredKind, h1]
      simp [List.filter_cons, hc, h1, ih, suggestionFor]
    · have hb1 : (b && (e.type == "ConditionError" || e.type == "PageLinkError" ||
                        e.type == "IntentError")) = false := by simpa using h1
      by_cases h2 : (e.type == "PageLinkError" || e.type == "HandlerMissing" ||
                     e.type == "ConditionError" || e.type == "CustomCheck") = true
      · have hc : coveredKind b e = true := by simp [coveredKind, h2]
        simp [List.filter_cons, hc, hb1, ih, suggestionFor, h2]
      · have hb2 : (e.type == "PageLinkError" || e.type == "HandlerMissing" ||
                    e.type == "ConditionError" || e.type == "CustomCheck") = false := by
          simpa using h2
        have hc : coveredKind b e = false := by simp [coveredKind, hb1, hb2]
        simp [List.filter_cons, hc, hb1, hb2, ih]

/-! ### Claim C3 -/

/-- The context object of `condOnlyDoc`. -/
def condOnlyCtx (c : String) : Json :=
  .obj [("flows", .arr
    [.obj [("name", .str "F1"), ("pages", .arr
      [.obj [("name", .str "P1"), ("handlers", .arr [condOnlyHandler c])]])]])]

/-- Lowercasing, for stating case-insensitive comparison. -/
def pyLowerS (s : String) : String := String.mk (s.data.map Char.toLower)

/-- On the one-condition-handler document, the whole validator output is the
condition checker's output for that handler. -/
theorem validate_condOnly (c : String) :
    validate_bot_json (condOnlyDoc c) Json.null =
      checkCond (condOnlyCtx c) [] "F1 > P1" (.str c) (condOnlyHandler c) := by
  obtain ⟨l⟩ := c
  cases l with
  | nil => rfl
  | cons c0 cs =>
    have h : validate_bot_json (condOnlyDoc ⟨c0 :: cs⟩) Json.null =
        ((((checkCond (condOnlyCtx ⟨c0 :: cs⟩) [] "F1 > P1" (.str ⟨c0 :: cs⟩)
            (condOnlyHandler ⟨c0 :: cs⟩) ++ []) ++ []) ++ []) ++ []) ++ [] := rfl
    rw [h]
    simp

/-- On the fixture handler (no presets, no declared intents or entities), the
condition checker reduces to casing findings, the missing-reference warning and
the function findings; the operator branch is gone by `opErrors_nil`. -/
theorem checkCond_condOnly (c : String) :
    checkCond (condOnlyCtx c) [] "F1 > P1" (.str c) (condOnlyHandler c) =
      boolCasing "F1 > P1" c ++
      ((let m := (scanRefs c).filter (fun r => !(r == "__NLU_INTENT__") && !(r == "NLU_INTENT"));
        if m.isEmpty then ([] : List Finding) else [mkCondWarning "F1 > P1" m]) ++
       (scanFuncs c).filterMap (fun fn =>
         if strMem fn allowedFunctionsL || strMem fn reservedWordsL then none
         else some (mkFuncError "F1 > P1" c fn))) := by
  unfold checkCond condInner
  simp [opErrors_nil, pyMem, condOnlyHandler, condOnlyCtx, Json.getD, jfind, pyIter,
        presetNamesLoop, namedTruthyLoop]

theorem funcMsg_ne_casingMsg (fn c : String) :
    ("허용되지 않은 함수 사용: " ++ fn) ≠ casingMsg c := by
  intro h
  have hd : "허용되지 않은 함수 사용: ".data ++ fn.data =
      "조건문 True는 반드시 대소문자 구분하여 \x27True\x27로 입력해야 합니다. 현재: \x27".data ++
        (c.data ++ "\x27".data) := by
    have h2 := congrArg String.data h
    rw [casingMsg, data_append, data_append, data_append, List.append_assoc] at h2
    exact h2
  exact absurd hd (cons_append_ne _ _ _ _ (by decide))

theorem countP_boolCasing (c : String) :
    (boolCasing "F1 > P1" c).countP
        (fun e => e.type == "ConditionError" && e.message == casingMsg c) =
      if pyStripS c = "true" ∨ pyStripS c = "TRUE" then 1 else 0 := by
  by_cases ht : pyStripS c = "true"
  · have hr : strMem "true" reservedWordsL = false := by decide
    simp [boolCasing, ht, hr, mkCasingError]
  · by_cases ht2 : pyStripS c = "TRUE"
    · have hr : strMem "TRUE" reservedWordsL = false := by decide
      simp [boolCasing, ht2, hr, mkCasingError]
    · have ht3 := pyStripS_ne_True_sp c
      have hfalse : (pyStripS c == "true" || pyStripS c == "TRUE" ||
          pyStripS c == "True ") = false := by
        simp [ht, ht2, ht3]
      simp [boolCasing, hfalse, ht, ht2]

theorem countP_warnPart (c : String) (m : List String) :
    ((if m.isEmpty then ([] : List Finding) else [mkCondWarning "F1 > P1" m]).countP
      (fun e => e.type == "ConditionError" && e.message == casingMsg c)) = 0 := by
  by_cases hm : m.isEmpty <;> simp [hm, mkCondWarning]

theorem countP_funcsPart (c : String) :
    (((scanFuncs c).filterMap (fun fn =>
        if strMem fn allowedFunctionsL || strMem fn reservedWordsL then none
        else some (mkFuncError "F1 > P1" c fn))).countP
      (fun e => e.type == "ConditionError" && e.message == casingMsg c)) = 0 := by
  rw [List.countP_eq_zero]
  intro e he
  obtain ⟨fn, hfn, hsome⟩ := List.mem_filterMap.mp he
  by_cases hcond : (strMem fn allowedFunctionsL || strMem fn reservedWordsL) = true
  · simp [hcond] at hsome
  · rw [if_neg (by simpa using hcond)] at hsome
    have he2 : e = mkFuncError "F1 > P1" c fn := (Option.some.inj hsome).symm
    subst he2
    simp [mkFuncError]
    intro hh
    exact absurd hh (funcMsg_ne_casingMsg fn c)

/-- C3 counterexample: the claim says a casing `ConditionError` is emitted
whenever the trimmed condition equals `true` case-insensitively without being
exactly `True`.  The condition `"tRue"` satisfies that premise — its trimmed
form lowercases to `"true"` and differs from `"True"` — yet the validator
returns no finding at all: the code only compares against the exact spellings
`'true'` and `'TRUE'` (and the unreachable `'True '`). -/
theorem c3_counterexample :
    validate_bot_json (condOnlyDoc "tRue") Json.null = [] ∧
    pyLowerS (pyStripS "tRue") = "true" ∧
    pyStripS "tRue" ≠ "True" :=
  ⟨rfl, by decide, by decide⟩

/-- C3 amended: for every `CONDITION` handler condition string, the validator
emits the boolean-casing `ConditionError` (identified by its message) exactly
when the trimmed condition is the exact spelling `"true"` or `"TRUE"`; in
particular the condition `"True"` (a reserved word) and every mixed-case
variant such as `"tRue"` produce zero findings from that check. -/
theorem c3_amended (c : String) :
    (validate_bot_json (condOnlyDoc c) Json.null).countP
        (fun e => e.type == "ConditionError" && e.message == casingMsg c) =
      (if pyStripS c = "true" ∨ pyStripS c = "TRUE" then 1 else 0) := by
  rw [validate_condOnly, checkCond_condOnly, List.countP_append, List.countP_append,
      countP_boolCasing, countP_warnPart, countP_funcsPart]
  simp

def actionPresetHandler (v : String) : Json :=
  .obj [("type", .str "CONDITION"),
        ("conditionStatement", .str ("\x7b$" ++ v ++ "\x7d")),
        ("action", .obj [("parameterPresets", .arr [.obj [("name", .str v), ("value", .str "1")]])])]

def actionPresetCtx (v : String) : Json :=
  .obj [("flows", .arr
    [.obj [("name", .str "F1"), ("pages", .arr
      [.obj [("name", .str "P1"), ("handlers", .arr [actionPresetHandler v])]])]])]

def actionPresetDoc (v : String) : Json :=
  .obj [("context", actionPresetCtx v)]

-- is the reduction rfl without case split on v?
example (v : String) :
    validate_bot_json (actionPresetDoc v) Json.null =
      ((((checkCond (actionPresetCtx v) [] "F1 > P1" (.str ("\x7b$" ++ v ++ "\x7d"))
          (actionPresetHandler v) ++ []) ++ []) ++ []) ++ []) ++ [] := rfl

theorem frame_data (v : String) :
    ("\x7b$" ++ v ++ "\x7d").data = braceO :: '$' :: (v.data ++ [braceC]) := by
  rw [data_append, data_append]
  have h3 : "\x7b$".data = [braceO, '$'] := by decide
  have h4 : "\x7d".data = [braceC] := by decide
  rw [h3, h4]
  simp

theorem frame_ne_spelling (v w : String) (hw : w.data.head? = some 'T' ∨ w.data.head? = some 't') :
    (("\x7b$" ++ v ++ "\x7d") == w) = false := by
  rw [beq_eq_false_iff_ne]
  intro hh
  have hd := congrArg String.data hh
  rw [frame_data] at hd
  rcases hw with hw | hw <;>
  · rw [← hd] at hw
    simp at hw
    exact absurd hw (by decide)

theorem frame_strip (v : String) :
    pyStripS ("\x7b$" ++ v ++ "\x7d") = "\x7b$" ++ v ++ "\x7d" := by
  unfold pyStripS stripChars
  rw [frame_data]
  have hwo : isWsC braceO = false := by decide
  have hwc : isWsC braceC = false := by decide
  rw [List.dropWhile_cons, hwo]
  simp only [Bool.false_eq_true, if_false]
  have hrev : (braceO :: '$' :: (v.data ++ [braceC])).reverse =
      braceC :: (v.data.reverse ++ ['$', braceO]) := by
    simp
  rw [hrev, List.dropWhile_cons, hwc]
  simp only [Bool.false_eq_true, if_false]
  rw [← hrev, List.reverse_reverse, ← frame_data, string_mk_data]

theorem frame_boolCasing (loc : String) (v : String) :
    boolCasing loc ("\x7b$" ++ v ++ "\x7d") = [] := by
  have hfalse : ((pyStripS ("\x7b$" ++ v ++ "\x7d")) == "true" ||
      (pyStripS ("\x7b$" ++ v ++ "\x7d")) == "TRUE" ||
      (pyStripS ("\x7b$" ++ v ++ "\x7d")) == "True ") = false := by
    rw [frame_strip]
    rw [frame_ne_spelling v "true" (by right; rfl),
        frame_ne_spelling v "TRUE" (by left; rfl),
        frame_ne_spelling v "True " (by left; rfl)]
    rfl
  simp [boolCasing, hfalse]

/-- C9: the parameter-reference check resolves a reference only against the
handler's top-level `parameterPresets` names plus the declared intent and
entity names.  In `actionPresetDoc v` the name `v` is declared solely under the
handler's `action.parameterPresets` (the last two conjuncts exhibit this), yet
the validator still emits the `ConditionWarning` listing `v` as missing. -/
theorem c9_action_preset_not_resolved (v : String) (h1 : v.data ≠ [])
    (h2 : ∀ c ∈ v.data, wordChar c = true)
    (h3 : v ≠ "__NLU_INTENT__") (h4 : v ≠ "NLU_INTENT") :
    validate_bot_json (actionPresetDoc v) Json.null = [mkCondWarning "F1 > P1" [v]] ∧
    ((actionPresetHandler v).getD "action" (.obj [])).getD "parameterPresets" (.arr []) =
      .arr [.obj [("name", .str v), ("value", .str "1")]] ∧
    (actionPresetHandler v).getD "parameterPresets" (.arr []) = .arr [] := by
  refine ⟨?_, rfl, rfl⟩
  have hred : validate_bot_json (actionPresetDoc v) Json.null =
      ((((checkCond (actionPresetCtx v) [] "F1 > P1" (.str ("\x7b$" ++ v ++ "\x7d"))
          (actionPresetHandler v) ++ []) ++ []) ++ []) ++ []) ++ [] := rfl
  rw [hred]
  unfold checkCond condInner
  have hb3 : (v == "__NLU_INTENT__") = false := beq_eq_false_iff_ne.mpr h3
  have hb4 : (v == "NLU_INTENT") = false := beq_eq_false_iff_ne.mpr h4
  simp [frame_boolCasing, scanRefs_frame v h1 h2, no_paren_frame v h2, opErrors_nil,
        actionPresetHandler, actionPresetCtx, Json.getD, jfind, pyIter,
        presetNamesLoop, namedTruthyLoop, pyMem, hb3, hb4]

/-- C9 witness: the theorem instantiated at the concrete name `orderId`. -/
theorem c9_witness :
    validate_bot_json (actionPresetDoc "orderId") Json.null =
      [mkCondWarning "F1 > P1" ["orderId"]] ∧
    ((actionPresetHandler "orderId").getD "action" (.obj [])).getD "parameterPresets" (.arr []) =
      .arr [.obj [("name", .str "orderId"), ("value", .str "1")]] ∧
    (actionPresetHandler "orderId").getD "parameterPresets" (.arr []) = .arr [] :=
  c9_action_preset_not_resolved "orderId" (by decide) (by decide) (by decide) (by decide)

/-! ### Claim C5 -/

/-- C5 amended: for every input document that is falsy (empty), or whose
membership test for `context` is defined and fails, or whose `context` entry is
reachable by subscript and has a defined, failing membership test for `flows`,
or whose `context.flows` entry exists and is not a list, `validate_bot_json`
returns exactly one finding, of type `DataStructureError` with location `전체`,
and performs no further checks.  (Truthy non-container documents — the case the
counterexample exhibits — fall outside these conditions: there the membership
test itself raises and is converted to a single `ValidationError` instead.) -/
theorem c5_amended (data cc : Json)
    (h : data.truthy = false ∨
         (data.truthy = true ∧ pyContains data "context" = .ok false) ∨
         (∃ ctx, data.truthy = true ∧ pyContains data "context" = .ok true ∧
            pySubscript data "context" = .ok ctx ∧ pyContains ctx "flows" = .ok false) ∨
         (∃ ctx fl, data.truthy = true ∧ pyContains data "context" = .ok true ∧
            pySubscript data "context" = .ok ctx ∧ pyContains ctx "flows" = .ok true ∧
            pySubscript ctx "flows" = .ok fl ∧ fl.isArr = false)) :
    ∃ f, validate_bot_json data cc = [f] ∧ f.type = "DataStructureError" ∧
      f.location = "전체" := by
  rcases h with h | ⟨ht, hc⟩ | ⟨ctx, ht, hc1, hs, hf⟩ | ⟨ctx, fl, ht, hc1, hs, hf1, hs2, ha⟩
  · refine ⟨dsErr1, ?_, rfl, rfl⟩
    unfold validate_bot_json validateCore
    rw [if_pos (by simp [h])]
  · refine ⟨dsErr1, ?_, rfl, rfl⟩
    unfold validate_bot_json validateCore
    rw [if_neg (by simp [ht])]
    simp [hc]
  · refine ⟨dsErr1, ?_, rfl, rfl⟩
    unfold validate_bot_json validateCore
    rw [if_neg (by simp [ht])]
    simp [hc1, hs, hf]
  · refine ⟨dsErr2, ?_, rfl, rfl⟩
    unfold validate_bot_json validateCore
    rw [if_neg (by simp [ht])]
    cases fl with
    | arr xs => simp [Json.isArr] at ha
    | null => simp [hc1, hs, hf1, hs2]
    | bool b => simp [hc1, hs, hf1, hs2]
    | num n => simp [hc1, hs, hf1, hs2]
    | str s => simp [hc1, hs, hf1, hs2]
    | obj fs => simp [hc1, hs, hf1, hs2]

/-- C5 counterexample: the claim quantifies over every document lacking the
key `context`.  The document `5` has no keys at all, yet the membership test
`'context' not in 5` raises `TypeError`, which the outer handler converts into
a single `ValidationError` — not the `DataStructureError` the claim requires. -/
theorem c5_counterexample :
    validate_bot_json (Json.num 5) Json.null =
      [mkValidationError "argument of type is not iterable"] ∧
    (Json.num 5).hasKey "context" = false ∧
    (validate_bot_json (Json.num 5) Json.null).map Finding.type = ["ValidationError"] :=
  ⟨rfl, rfl, rfl⟩

/-- C5 witness: the amended theorem applied to a document whose `context`
object lacks `flows`. -/
theorem c5_witness :
    ∃ f, validate_bot_json (Json.obj [("context", Json.obj [])]) Json.null = [f] ∧
      f.type = "DataStructureError" ∧ f.location = "전체" :=
  c5_amended _ _ (Or.inr (Or.inr (Or.inl ⟨Json.obj [], rfl, rfl, rfl, rfl⟩)))

/-! ### Claim C6 -/

theorem vloop_congr (f g : Json → VRes) (h : ∀ x, f x = g x) (l : List Json) :
    vloop f l = vloop g l := by
  induction l with
  | nil => rfl
  | cons x xs ih => rw [vloop_cons, vloop_cons, h x, ih]

theorem checkCond_congr (ctx ctx' : Json)
    (h : ctx.getD "customEntities" (.arr []) = ctx'.getD "customEntities" (.arr []))
    (aI : List Json) (loc : String) (condJ hd : Json) :
    checkCond ctx aI loc condJ hd = checkCond ctx' aI loc condJ hd := by
  unfold checkCond condInner
  rw [h]

theorem checkHandlerDetail_congr (ctx ctx' : Json)
    (h : ctx.getD "customEntities" (.arr []) = ctx'.getD "customEntities" (.arr []))
    (aI : List Json) (loc : String) (hd : Json) :
    checkHandlerDetail ctx aI loc hd = checkHandlerDetail ctx' aI loc hd := by
  unfold checkHandlerDetail
  simp only [checkCond_congr ctx ctx' h]

theorem checkPage_congr (ctx ctx' : Json)
    (h : ctx.getD "customEntities" (.arr []) = ctx'.getD "customEntities" (.arr []))
    (aI pN : List Json) (fn p : Json) :
    checkPage ctx aI pN fn p = checkPage ctx' aI pN fn p := by
  unfold checkPage
  simp only [checkHandlerDetail_congr ctx ctx' h]

theorem checkFlow_congr (ctx ctx' : Json)
    (h : ctx.getD "customEntities" (.arr []) = ctx'.getD "customEntities" (.arr []))
    (aI pN : List Json) (f : Json) :
    checkFlow ctx aI pN f = checkFlow ctx' aI pN f := by
  unfold checkFlow
  simp only [checkPage_congr ctx ctx' h]

/-- A flow named `F` with the given page list. -/
def flowC6 (pages : List Json) : Json :=
  .obj [("name", .str "F"), ("pages", .arr pages)]

/-- Context with a single flow. -/
def ctxC6 (pages : List Json) : Json :=
  .obj [("flows", .arr [flowC6 pages])]

/-- Document with a single flow whose page list is a parameter. -/
def docC6 (pages : List Json) : Json :=
  .obj [("context", ctxC6 pages)]

theorem collectPagesLoop_skip (bad : Json) (hbad : wfPage bad = false)
    (pPre pPost : List Json) (acc : List Json) :
    collectPagesLoop acc (pPre ++ [bad] ++ pPost) = collectPagesLoop acc (pPre ++ pPost) := by
  induction pPre generalizing acc with
  | nil => simp [collectPagesLoop, hbad]
  | cons p ps ih =>
    simp only [List.cons_append]
    rw [collectPagesLoop, collectPagesLoop]
    by_cases hp : wfPage p
    · simp only [hp, if_true]
      cases hadd : pySetAdd acc (p.getD "name" .null) with
      | ok a2 => exact ih a2
      | error e => rfl
    · simp only [hp]
      simp only [Bool.false_eq_true, if_false]
      exact ih acc

theorem vloop_skip (f : Json → VRes) (bad : Json) (hbad : f bad = ([], none))
    (a b : List Json) : vloop f (a ++ [bad] ++ b) = vloop f (a ++ b) := by
  rw [List.append_assoc, vloop_append, vloop_append, vloop_append f a b]
  congr 1
  show vseq (vloop f [bad]) (vloop f b) = vloop f b
  rw [show vloop f [bad] = vseq (f bad) ([], none) from rfl, hbad, vseq_nil_left, vseq_nil_left]

theorem exceptId (r : Except String (List Json)) :
    (match r with | .ok a2 => Except.ok a2 | .error e => Except.error e) = r := by
  cases r <;> rfl

example (pages : List Json) (cc : Json) : validateCore (docC6 pages) cc =
    (match collectFlowsLoop [] [flowC6 pages] with
     | .error e => ([], some e)
     | .ok pN => vseq (vloop (fun f => checkFlow (ctxC6 pages) [] pN f) [flowC6 pages])
         (customPart cc)) := rfl

example (pages : List Json) : collectFlowsLoop [] [flowC6 pages] =
    (match collectPagesLoop [] pages with
     | .ok a2 => Except.ok a2
     | .error e => Except.error e) := rfl

example (pages : List Json) (pN : List Json) :
    checkFlow (ctxC6 pages) [] pN (flowC6 pages) =
      vloop (fun p => checkPage (ctxC6 pages) [] pN (.str "F") p) pages := rfl

/-- C6: tolerance of a non-mapping page.  `validate_bot_json` is a total
function of the document (every internal exception path is caught at its own
boundary and becomes a finding), and a page that is the string literal
`"not-a-dict"`, inserted anywhere among the pages of a flow, is skipped by the
page-name collection and by every check loop: the findings are exactly those of
the same document without it, for every surrounding page list and custom-check
argument. -/
theorem c6_tolerance (pPre pPost : List Json) (cc : Json) :
    validate_bot_json (docC6 (pPre ++ [Json.str "not-a-dict"] ++ pPost)) cc =
      validate_bot_json (docC6 (pPre ++ pPost)) cc := by
  have hred : ∀ pages, validateCore (docC6 pages) cc =
      (match collectFlowsLoop [] [flowC6 pages] with
       | .error e => ([], some e)
       | .ok pN => vseq (vloop (fun f => checkFlow (ctxC6 pages) [] pN f) [flowC6 pages])
           (customPart cc)) := fun _ => rfl
  have hflows : ∀ pages, collectFlowsLoop [] [flowC6 pages] = collectPagesLoop [] pages := by
    intro pages
    rw [show collectFlowsLoop [] [flowC6 pages] =
        (match collectPagesLoop [] pages with
         | .ok a2 => Except.ok a2
         | .error e => Except.error e) from rfl, exceptId]
  have hcol : collectPagesLoop [] (pPre ++ [Json.str "not-a-dict"] ++ pPost) =
      collectPagesLoop [] (pPre ++ pPost) :=
    collectPagesLoop_skip (Json.str "not-a-dict") rfl pPre pPost []
  have hflow : ∀ pN, checkFlow (ctxC6 (pPre ++ [Json.str "not-a-dict"] ++ pPost)) [] pN
      (flowC6 (pPre ++ [Json.str "not-a-dict"] ++ pPost)) =
      checkFlow (ctxC6 (pPre ++ pPost)) [] pN (flowC6 (pPre ++ pPost)) := by
    intro pN
    rw [show checkFlow (ctxC6 (pPre ++ [Json.str "not-a-dict"] ++ pPost)) [] pN
        (flowC6 (pPre ++ [Json.str "not-a-dict"] ++ pPost)) =
        vloop (fun p => checkPage (ctxC6 (pPre ++ [Json.str "not-a-dict"] ++ pPost)) [] pN
          (.str "F") p) (pPre ++ [Json.str "not-a-dict"] ++ pPost) from rfl]
    rw [show checkFlow (ctxC6 (pPre ++ pPost)) [] pN (flowC6 (pPre ++ pPost)) =
        vloop (fun p => checkPage (ctxC6 (pPre ++ pPost)) [] pN (.str "F") p)
          (pPre ++ pPost) from rfl]
    rw [vloop_skip _ _ rfl]
    exact vloop_congr _ _ (fun p => checkPage_congr _ _ rfl [] pN (.str "F") p) _
  unfold validate_bot_json
  rw [hred, hred, hflows, hflows, hcol]
  cases hc : collectPagesLoop [] (pPre ++ pPost) with
  | error e => rfl
  | ok pN =>
    dsimp only
    rw [show vloop (fun f => checkFlow (ctxC6 (pPre ++ [Json.str "not-a-dict"] ++ pPost)) [] pN f)
        [flowC6 (pPre ++ [Json.str "not-a-dict"] ++ pPost)] =
        vseq (checkFlow (ctxC6 (pPre ++ [Json.str "not-a-dict"] ++ pPost)) [] pN
          (flowC6 (pPre ++ [Json.str "not-a-dict"] ++ pPost))) ([], none) from rfl]
    rw [show vloop (fun f => checkFlow (ctxC6 (pPre ++ pPost)) [] pN f)
        [flowC6 (pPre ++ pPost)] =
        vseq (checkFlow (ctxC6 (pPre ++ pPost)) [] pN (flowC6 (pPre ++ pPost))) ([], none)
        from rfl]
    rw [hflow pN]

/-! ### Claim C7 -/

theorem locAll_boolCasing (loc cond : String) :
    ∀ e ∈ boolCasing loc cond, e.location = loc := by
  intro e he
  unfold boolCasing at he
  simp_all [mkCasingError]

theorem locAll_funcErrors (loc cond : String) :
    ∀ e ∈ (scanFuncs cond).filterMap (fun fn =>
      if strMem fn allowedFunctionsL || strMem fn reservedWordsL then none
      else some (mkFuncError loc cond fn)), e.location = loc := by
  intro e he
  obtain ⟨fn, _, hsome⟩ := List.mem_filterMap.mp he
  by_cases hc : (strMem fn allowedFunctionsL || strMem fn reservedWordsL) = true
  · simp [hc] at hsome
  · rw [if_neg (by simpa using hc)] at hsome
    rw [← Option.some.inj hsome]
    rfl

theorem locAll_condInner (ctx : Json) (aI : List Json) (loc : String) (condJ h : Json) :
    ∀ e ∈ (condInner ctx aI loc condJ h).1, e.location = loc := by
  intro e he
  unfold condInner at he
  cases condJ with
  | str cond =>
    dsimp only at he
    cases h1 : pyIter (h.getD "parameterPresets" (.arr [])) with
    | error e1 =>
      simp only [h1] at he
      exact locAll_boolCasing loc cond e he
    | ok ps =>
      simp only [h1] at he
      cases h2 : presetNamesLoop [] ps with
      | error e2 =>
        simp only [h2] at he
        exact locAll_boolCasing loc cond e he
      | ok pnames =>
        simp only [h2] at he
        cases h3 : pyIter (ctx.getD "customEntities" (.arr [])) with
        | error e3 =>
          simp only [h3] at he
          exact locAll_boolCasing loc cond e he
        | ok ents =>
          simp only [h3] at he
          cases h4 : namedTruthyLoop [] ents with
          | error e4 =>
            simp only [h4] at he
            exact locAll_boolCasing loc cond e he
          | ok entNames =>
            simp only [h4] at he
            simp only [List.mem_append] at he
            rcases he with ((he | he) | he) | he
            · exact locAll_boolCasing loc cond e he
            · split at he
              · simp at he
              · simp_all [mkCondWarning]
            · rw [opErrors_nil] at he
              simp at he
            · exact locAll_funcErrors loc cond e he
  | null => simp at he
  | bool b => simp at he
  | num n => simp at he
  | arr xs => simp at he
  | obj fs => simp at he

theorem locAll_checkCond (ctx : Json) (aI : List Json) (loc : String) (condJ h : Json) :
    ∀ e ∈ checkCond ctx aI loc condJ h, e.location = loc := by
  intro e he
  unfold checkCond at he
  cases hci : condInner ctx aI loc condJ h with
  | mk es o =>
    rw [hci] at he
    cases o with
    | none =>
      have := locAll_condInner ctx aI loc condJ h e
      rw [hci] at this
      exact this he
    | some e2 =>
      simp only [List.mem_append, List.mem_singleton] at he
      rcases he with he | he
      · have := locAll_condInner ctx aI loc condJ h e
        rw [hci] at this
        exact this he
      · rw [he]
        rfl

theorem locAll_checkTransition (pN : List Json) (loc : String) (h : Json) :
    ∀ e ∈ (checkTransition pN loc h).1, e.location = loc := by
  intro e he
  unfold checkTransition at he
  dsimp only at he
  repeat' split at he
  all_goals simp_all [mkPageLinkError]

theorem locAll_checkIntentHandler (aI : List Json) (loc : String) (h : Json) :
    ∀ e ∈ (checkIntentHandler aI loc h).1, e.location = loc := by
  intro e he
  unfold checkIntentHandler at he
  dsimp only at he
  repeat' split at he
  all_goals simp_all [mkIntentError]

theorem locAll_checkEventHandler (loc : String) (h : Json) :
    ∀ e ∈ (checkEventHandler loc h).1, e.location = loc := by
  intro e he
  unfold checkEventHandler at he
  dsimp only at he
  repeat' split at he
  all_goals simp_all [mkEventWarning]

theorem locAll_checkHandlerDetail (ctx : Json) (aI : List Json) (loc : String) (h : Json) :
    ∀ e ∈ (checkHandlerDetail ctx aI loc h).1, e.location = loc := by
  intro e he
  unfold checkHandlerDetail at he
  split at he
  · rcases vseq_fst_mem he with he | he
    · split at he
      · exact locAll_checkIntentHandler aI loc h e he
      · simp at he
    · rcases vseq_fst_mem he with he | he
      · split at he
        · exact locAll_checkCond ctx aI loc _ h e he
        · simp at he
      · split at he
        · exact locAll_checkEventHandler loc h e he
        · simp at he
  · simp at he

theorem locAll_checkPage (ctx : Json) (aI pN : List Json) (fn p : Json) :
    ∀ e ∈ (checkPage ctx aI pN fn p).1,
      wfPage p = true ∧
      e.location = pyStr fn ++ " > " ++ pyStr (p.getD "name" .null) := by
  intro e he
  unfold checkPage at he
  split at he
  case isTrue hwf =>
    refine ⟨hwf, ?_⟩
    cases h1 : pyIter (p.getD "handlers" (.arr [])) with
    | error e1 =>
      simp only [h1] at he
      simp at he
    | ok hs =>
      simp only [h1] at he
      rcases vseq_fst_mem he with he | he
      · obtain ⟨x, _, hex⟩ := vloop_mem he
        split at hex
        · exact locAll_checkTransition pN _ x e hex
        · simp at hex
      · rcases vseq_fst_mem he with he | he
        · split at he
          · simp at he
          · simp_all [mkHandlerMissing]
        · obtain ⟨x, _, hex⟩ := vloop_mem he
          exact locAll_checkHandlerDetail ctx aI _ x e hex
  case isFalse => simp at he

theorem locAll_checkFlow (ctx : Json) (aI pN : List Json) (f : Json) :
    ∀ e ∈ (checkFlow ctx aI pN f).1,
      wfFlow f = true ∧
      ∃ ps, pyIter (f.getD "pages" (.arr [])) = .ok ps ∧
        ∃ p ∈ ps, wfPage p = true ∧
          e.location = pyStr (f.getD "name" .null) ++ " > " ++ pyStr (p.getD "name" .null) := by
  intro e he
  unfold checkFlow at he
  split at he
  case isTrue hwf =>
    refine ⟨hwf, ?_⟩
    cases h1 : pyIter (f.getD "pages" (.arr [])) with
    | error e1 =>
      simp only [h1] at he
      simp at he
    | ok ps =>
      simp only [h1] at he
      obtain ⟨p, hp, hep⟩ := vloop_mem he
      obtain ⟨hwp, hloc⟩ := locAll_checkPage ctx aI pN (f.getD "name" .null) p e hep
      exact ⟨ps, rfl, p, hp, hwp, hloc⟩
  case isFalse => simp at he

theorem locAll_customPart (cc : Json) :
    ∀ e ∈ (customPart cc).1, e.location = "전체" := by
  intro e he
  unfold customPart at he
  split at he
  · cases h1 : pyIter cc with
    | error e1 => simp only [h1] at he; simp at he
    | ok items =>
      simp only [h1] at he
      obtain ⟨x, _, hex⟩ := List.mem_map.mp he
      rw [← hex]
      rfl
  · simp at he

/-- Location shape of everything produced by the body of the outer `try`. -/
theorem locAll_validateCore (data cc : Json) :
    ∀ e ∈ (validateCore data cc).1,
      e.location = "전체" ∨
      ∃ ctx flows f p ps,
        pySubscript data "context" = .ok ctx ∧
        pySubscript ctx "flows" = .ok (.arr flows) ∧
        f ∈ flows ∧ wfFlow f = true ∧
        pyIter (f.getD "pages" (.arr [])) = .ok ps ∧ p ∈ ps ∧ wfPage p = true ∧
        e.location = pyStr (f.getD "name" .null) ++ " > " ++ pyStr (p.getD "name" .null) := by
  intro e he
  unfold validateCore at he
  split at he
  · left; simp_all [dsErr1]
  · cases h1 : pyContains data "context" with
    | error e1 => simp only [h1] at he; simp at he
    | ok b1 =>
      simp only [h1] at he
      cases b1 with
      | false => left; simp_all [dsErr1]
      | true =>
        cases h2 : pySubscript data "context" with
        | error e2 => simp only [h2] at he; simp at he
        | ok ctx =>
          simp only [h2] at he
          cases h3 : pyContains ctx "flows" with
          | error e3 => simp only [h3] at he; simp at he
          | ok b3 =>
            simp only [h3] at he
            cases b3 with
            | false => left; simp_all [dsErr1]
            | true =>
              cases h4 : pySubscript ctx "flows" with
              | error e4 => simp only [h4] at he; simp at he
              | ok flowsJ =>
                simp only [h4] at he
                cases flowsJ with
                | arr flows =>
                  cases h5 : computeAllIntents ctx with
                  | error e5 => simp only [h5] at he; simp at he
                  | ok aI =>
                    simp only [h5] at he
                    cases h6 : collectFlowsLoop [] flows with
                    | error e6 => simp only [h6] at he; simp at he
                    | ok pN =>
                      simp only [h6] at he
                      rcases vseq_fst_mem he with he | he
                      · obtain ⟨f, hf, hef⟩ := vloop_mem he
                        obtain ⟨hwf, ps, hps, p, hp, hwp, hloc⟩ :=
                          locAll_checkFlow ctx aI pN f e hef
                        exact Or.inr ⟨ctx, flows, f, p, ps, rfl, h4, hf, hwf, hps, hp, hwp, hloc⟩
                      · left; exact locAll_customPart cc e he
                | null => left; simp_all [dsErr2]
                | bool b => left; simp_all [dsErr2]
                | num n => left; simp_all [dsErr2]
                | str s => left; simp_all [dsErr2]
                | obj fs => left; simp_all [dsErr2]

/-- C7: every finding returned by `validate_bot_json`, for every input
document and custom-check argument, carries the four fields `type`, `message`,
`location`, `suggestion` (structurally, as every append site in the source
populates all four), and its location is never empty: it is either the
document-wide sentinel `전체` or the string `flow > page` built from an actual
well-formed flow/page pair of the document. -/
theorem c7_finding_location (data cc : Json) (e : Finding)
    (he : e ∈ validate_bot_json data cc) :
    e.location ≠ "" ∧
    (e.location = "전체" ∨
      ∃ ctx flows f p ps,
        pySubscript data "context" = .ok ctx ∧
        pySubscript ctx "flows" = .ok (.arr flows) ∧
        f ∈ flows ∧ wfFlow f = true ∧
        pyIter (f.getD "pages" (.arr [])) = .ok ps ∧ p ∈ ps ∧ wfPage p = true ∧
        e.location = pyStr (f.getD "name" .null) ++ " > " ++ pyStr (p.getD "name" .null)) := by
  have hshape : e.location = "전체" ∨
      ∃ ctx flows f p ps,
        pySubscript data "context" = .ok ctx ∧
        pySubscript ctx "flows" = .ok (.arr flows) ∧
        f ∈ flows ∧ wfFlow f = true ∧
        pyIter (f.getD "pages" (.arr [])) = .ok ps ∧ p ∈ ps ∧ wfPage p = true ∧
        e.location = pyStr (f.getD "name" .null) ++ " > " ++ pyStr (p.getD "name" .null) := by
    unfold validate_bot_json at he
    cases hvc : validateCore data cc with
    | mk es o =>
      rw [hvc] at he
      have hes : ∀ x ∈ es, x.location = "전체" ∨
          ∃ ctx flows f p ps,
            pySubscript data "context" = .ok ctx ∧
            pySubscript ctx "flows" = .ok (.arr flows) ∧
            f ∈ flows ∧ wfFlow f = true ∧
            pyIter (f.getD "pages" (.arr [])) = .ok ps ∧ p ∈ ps ∧ wfPage p = true ∧
            x.location = pyStr (f.getD "name" .null) ++ " > " ++ pyStr (p.getD "name" .null) := by
        intro x hx
        have := locAll_validateCore data cc x
        rw [hvc] at this
        exact this hx
      cases o with
      | none => exact hes e he
      | some msg =>
        simp only [List.mem_append, List.mem_singleton] at he
        rcases he with he | he
        · exact hes e he
        · left; rw [he]; rfl
  refine ⟨?_, hshape⟩
  rcases hshape with h | ⟨_, _, _, _, _, _, _, _, _, _, _, _, hloc⟩
  · rw [h]; decide
  · rw [hloc]
    intro hh
    have := congrArg String.length hh
    rw [String.length_append, String.length_append] at this
    have h3 : (" > " : String).length = 3 := rfl
    have h0 : ("" : String).length = 0 := rfl
    rw [h3, h0] at this
    omega

/-- C7 witness: the theorem applied to a one-flow document whose only page
has no handlers, at its `HandlerMissing` finding. -/
theorem c7_witness :
    (mkHandlerMissing "F > P").location ≠ "" ∧
    ((mkHandlerMissing "F > P").location = "전체" ∨
      ∃ ctx flows f p ps,
        pySubscript (docC6 [Json.obj [("name", Json.str "P")]]) "context" = .ok ctx ∧
        pySubscript ctx "flows" = .ok (.arr flows) ∧
        f ∈ flows ∧ wfFlow f = true ∧
        pyIter (f.getD "pages" (.arr [])) = .ok ps ∧ p ∈ ps ∧ wfPage p = true ∧
        (mkHandlerMissing "F > P").location =
          pyStr (f.getD "name" .null) ++ " > " ++ pyStr (p.getD "name" .null)) :=
  c7_finding_location (docC6 [Json.obj [("name", Json.str "P")]]) Json.null
    (mkHandlerMissing "F > P")
    (by rw [show validate_bot_json (docC6 [Json.obj [("name", Json.str "P")]]) Json.null =
          [mkHandlerMissing "F > P"] from rfl]
        exact List.mem_singleton.mpr rfl)

/-! ### Claim C1 -/

/-- The elements an iteration yields, as a pure projection (empty on the
non-iterable values). -/
def iterElems (j : Json) : List Json :=
  match pyIter j with
  | .ok l => l
  | .error _ => []

/-- Modelled from the spec: the page-name registry, "the set of page names
collected from every well-formed page across the whole document". -/
def specPageRegistry (flows : List Json) : List Json :=
  flows.flatMap (fun f =>
    if wfFlow f then
      (iterElems (f.getD "pages" (.arr []))).filterMap (fun p =>
        if wfPage p then some (p.getD "name" .null) else none)
    else [])

/-- Modelled from the spec: the `PageLinkError` emitted for one handler —
one finding iff `transitionTarget.type == "CUSTOM"`, the target page is
non-empty (truthy) and it is not in the registry. -/
def specHandlerPLE (reg : List Json) (loc : String) (h : Json) : List Finding :=
  let target := h.getD "transitionTarget" (.obj [])
  if target.isObj && pyEq (target.getD "type" .null) (.str "CUSTOM") then
    let pv := target.getD "page" .null
    if pv.truthy && !pyMem pv reg then [mkPageLinkError loc pv] else []
  else []

/-- Modelled from the spec: all `PageLinkError` findings of a document — the
registry is built from the whole document first, then every handler of every
well-formed flow/page is checked against it. -/
def specPageLinkErrors (data : Json) : List Finding :=
  match pySubscript data "context" with
  | .error _ => []
  | .ok ctx =>
    match pySubscript ctx "flows" with
    | .error _ => []
    | .ok (.arr flows) =>
      let reg := specPageRegistry flows
      flows.flatMap (fun f =>
        if wfFlow f then
          (iterElems (f.getD "pages" (.arr []))).flatMap (fun p =>
            if wfPage p then
              (iterElems (p.getD "handlers" (.arr []))).flatMap (fun h =>
                if h.isObj then
                  specHandlerPLE reg
                    (pyStr (f.getD "name" .null) ++ " > " ++ pyStr (p.getD "name" .null)) h
                else [])
            else [])
        else [])
    | .ok _ => []

theorem filter_flatMap {α β : Type} (p : β → Bool) (g : α → List β) (l : List α) :
    (l.flatMap g).filter p = l.flatMap (fun x => (g x).filter p) := by
  induction l with
  | nil => rfl
  | cons x xs ih => simp [List.flatMap_cons, List.filter_append, ih]

theorem pyEq_congr (y x z : Json) (h : pyEq y x = true) : pyEq y z = pyEq x z := by
  cases y <;> cases x <;> cases z <;> simp_all [pyEq] <;> first
    | omega
    | (rename_i b1 n b2; subst h; cases b1 <;> cases b2 <;> simp)
    | (rename_i n b1 b2; subst h; cases b1 <;> cases b2 <;> simp)

theorem pyMem_congr (y x : Json) (s : List Json) (h : pyEq y x = true) :
    pyMem y s = pyMem x s := by
  induction s with
  | nil => rfl
  | cons a rest ih => simp [pyMem, List.any_cons] at ih ⊢; rw [pyEq_congr y x a h, ih]

theorem pySetAdd_mem {s s2 : List Json} {x : Json} (h : pySetAdd s x = .ok s2) (y : Json) :
    pyMem y s2 = (pyMem y s || pyEq y x) := by
  unfold pySetAdd at h
  split at h
  · have h2 : (if pyMem x s then s else s ++ [x]) = s2 := Except.ok.inj h
    by_cases hm : pyMem x s = true
    · rw [if_pos hm] at h2
      subst h2
      by_cases hy : pyEq y x = true
      · rw [hy, pyMem_congr y x s hy, hm]
        rfl
      · rw [(by simpa using hy : pyEq y x = false), Bool.or_false]
    · rw [if_neg hm] at h2
      subst h2
      simp [pyMem, List.any_append]
  · simp at h

/-- The names contributed by one flow's page list, spec side. -/
def specPagesNames (ps : List Json) : List Json :=
  ps.filterMap (fun p => if wfPage p then some (p.getD "name" .null) else none)

theorem collectPagesLoop_mem {acc ps r : List Json}
    (h : collectPagesLoop acc ps = .ok r) (y : Json) :
    pyMem y r = (pyMem y acc || pyMem y (specPagesNames ps)) := by
  induction ps generalizing acc with
  | nil =>
    rw [collectPagesLoop] at h
    have : acc = r := Except.ok.inj h
    subst this
    simp [specPagesNames, pyMem]
  | cons p rest ih =>
    rw [collectPagesLoop] at h
    by_cases hp : wfPage p
    · rw [if_pos hp] at h
      cases hadd : pySetAdd acc (p.getD "name" .null) with
      | error e => rw [hadd] at h; simp at h
      | ok a2 =>
        rw [hadd] at h
        rw [ih h, pySetAdd_mem hadd y]
        have hs : specPagesNames (p :: rest) = (p.getD "name" .null) :: specPagesNames rest := by
          simp [specPagesNames, List.filterMap_cons, hp]
        rw [hs]
        simp [pyMem, List.any_cons, Bool.or_assoc, Bool.or_comm, Bool.or_left_comm]
    · rw [if_neg hp] at h
      rw [ih h]
      have hs : specPagesNames (p :: rest) = specPagesNames rest := by
        simp [specPagesNames, List.filterMap_cons, hp]
      rw [hs]

theorem collectFlowsLoop_mem {acc flows r : List Json}
    (h : collectFlowsLoop acc flows = .ok r) (y : Json) :
    pyMem y r = (pyMem y acc || pyMem y (specPageRegistry flows)) := by
  induction flows generalizing acc with
  | nil =>
    rw [collectFlowsLoop] at h
    have : acc = r := Except.ok.inj h
    subst this
    simp [specPageRegistry, pyMem]
  | cons f rest ih =>
    rw [collectFlowsLoop] at h
    by_cases hf : wfFlow f
    · rw [if_pos hf] at h
      cases hit : pyIter (f.getD "pages" (.arr [])) with
      | error e => simp only [hit] at h; simp at h
      | ok ps =>
        simp only [hit] at h
        cases hc : collectPagesLoop acc ps with
        | error e => simp only [hc] at h; simp at h
        | ok a2 =>
          simp only [hc] at h
          rw [ih h]
          have hs : specPageRegistry (f :: rest) =
              specPagesNames ps ++ specPageRegistry rest := by
            simp only [specPageRegistry, List.flatMap_cons, hf, if_true]
            have : iterElems (f.getD "pages" (.arr [])) = ps := by
              simp [iterElems, hit]
            rw [this]
            rfl
          rw [hs]
          rw [collectPagesLoop_mem hc y]
          simp [pyMem, List.any_append, Bool.or_assoc, Bool.or_comm, Bool.or_left_comm]
    · rw [if_neg hf] at h
      rw [ih h]
      have hs : specPageRegistry (f :: rest) = specPageRegistry rest := by
        simp [specPageRegistry, List.flatMap_cons, hf]
      rw [hs]

theorem jfind_none {fs : List (String × Json)} {key : String}
    (h : fs.any (fun kv => kv.1 == key) = false) : jfind fs key = none := by
  induction fs with
  | nil => rfl
  | cons kv rest ih =>
    simp only [List.any_cons, Bool.or_eq_false_iff] at h
    rw [jfind]
    rw [if_neg (by simpa using h.1)]
    exact ih h.2

theorem spec_nil_of_falsy {data : Json} (h : data.truthy = false) :
    specPageLinkErrors data = [] := by
  cases data with
  | obj fs =>
    have : fs = [] := by
      simpa [Json.truthy, List.isEmpty_iff] using h
    subst this
    rfl
  | null => rfl
  | bool b => rfl
  | num n => rfl
  | str s => rfl
  | arr xs => rfl

theorem spec_nil_of_no_context {data : Json}
    (h : pyContains data "context" = .ok false) : specPageLinkErrors data = [] := by
  cases data with
  | obj fs =>
    have hj : jfind fs "context" = none := jfind_none (by simpa [pyContains] using h)
    unfold specPageLinkErrors
    simp [pySubscript, hj]
  | null => simp [pyContains] at h
  | bool b => simp [pyContains] at h
  | num n => simp [pyContains] at h
  | str s => rfl
  | arr xs => rfl

theorem spec_nil_of_no_flows {data ctx : Json}
    (hs : pySubscript data "context" = .ok ctx)
    (h : pyContains ctx "flows" = .ok false) : specPageLinkErrors data = [] := by
  unfold specPageLinkErrors
  simp only [hs]
  cases ctx with
  | obj fs =>
    have hj : jfind fs "flows" = none := jfind_none (by simpa [pyContains] using h)
    simp [pySubscript, hj]
  | null => simp [pyContains] at h
  | bool b => simp [pyContains] at h
  | num n => simp [pyContains] at h
  | str s => rfl
  | arr xs => rfl

theorem spec_nil_of_flows_not_list {data ctx fl : Json}
    (hs : pySubscript data "context" = .ok ctx)
    (hf : pySubscript ctx "flows" = .ok fl) (ha : fl.isArr = false) :
    specPageLinkErrors data = [] := by
  unfold specPageLinkErrors
  simp only [hs, hf]
  cases fl with
  | arr xs => simp [Json.isArr] at ha
  | null => rfl
  | bool b => rfl
  | num n => rfl
  | str s => rfl
  | obj fs => rfl

theorem typeAll_checkTransition (pN : List Json) (loc : String) (h : Json) :
    ∀ e ∈ (checkTransition pN loc h).1, (e.type == "PageLinkError") = true := by
  intro e he
  unfold checkTransition at he
  dsimp only at he
  repeat' split at he
  all_goals simp_all [mkPageLinkError]

theorem typeNe_condInner (ctx : Json) (aI : List Json) (loc : String) (condJ h : Json) :
    ∀ e ∈ (condInner ctx aI loc condJ h).1, (e.type == "PageLinkError") = false := by
  have hbc : ∀ cond e, e ∈ boolCasing loc cond → (e.type == "PageLinkError") = false := by
    intro cond e he
    unfold boolCasing at he
    simp_all [mkCasingError]
  intro e he
  unfold condInner at he
  cases condJ with
  | str cond =>
    dsimp only at he
    cases h1 : pyIter (h.getD "parameterPresets" (.arr [])) with
    | error e1 =>
      simp only [h1] at he
      exact hbc cond e he
    | ok ps =>
      simp only [h1] at he
      cases h2 : presetNamesLoop [] ps with
      | error e2 =>
        simp only [h2] at he
        exact hbc cond e he
      | ok pnames =>
        simp only [h2] at he
        cases h3 : pyIter (ctx.getD "customEntities" (.arr [])) with
        | error e3 =>
          simp only [h3] at he
          exact hbc cond e he
        | ok ents =>
          simp only [h3] at he
          cases h4 : namedTruthyLoop [] ents with
          | error e4 =>
            simp only [h4] at he
            exact hbc cond e he
          | ok entNames =>
            simp only [h4] at he
            simp only [List.mem_append] at he
            rcases he with ((he | he) | he) | he
            · exact hbc cond e he
            · split at he
              · simp at he
              · simp_all [mkCondWarning]
            · rw [opErrors_nil] at he
              simp at he
            · obtain ⟨fn, _, hsome⟩ := List.mem_filterMap.mp he
              by_cases hc : (strMem fn allowedFunctionsL || strMem fn reservedWordsL) = true
              · simp [hc] at hsome
              · rw [if_neg (by simpa using hc)] at hsome
                rw [← Option.some.inj hsome]
                rfl
  | null => simp at he
  | bool b => simp at he
  | num n => simp at he
  | arr xs => simp at he
  | obj fs => simp at he

theorem typeNe_checkHandlerDetail (ctx : Json) (aI : List Json) (loc : String) (h : Json) :
    ∀ e ∈ (checkHandlerDetail ctx aI loc h).1, (e.type == "PageLinkError") = false := by
  intro e he
  unfold checkHandlerDetail at he
  split at he
  · rcases vseq_fst_mem he with he | he
    · split at he
      · unfold checkIntentHandler at he
        dsimp only at he
        repeat' split at he
        all_goals simp_all [mkIntentError]
      · simp at he
    · rcases vseq_fst_mem he with he | he
      · split at he
        · unfold checkCond at he
          cases hci : condInner ctx aI loc (h.getD "conditionStatement" (.str "")) h with
          | mk es o =>
            rw [hci] at he
            have hsub := typeNe_condInner ctx aI loc (h.getD "conditionStatement" (.str "")) h e
            rw [hci] at hsub
            cases o with
            | none => exact hsub he
            | some e2 =>
              simp only [List.mem_append, List.mem_singleton] at he
              rcases he with he | he
              · exact hsub he
              · rw [he]
                rfl
        · simp at he
      · split at he
        · unfold checkEventHandler at he
          dsimp only at he
          repeat' split at he
          all_goals simp_all [mkEventWarning]
        · simp at he
  · simp at he

theorem checkTransition_spec (pN reg : List Json) (loc : String) (h : Json)
    (hok : (checkTransition pN loc h).2 = none)
    (hreg : ∀ x, pyMem x pN = pyMem x reg) :
    (checkTransition pN loc h).1 = specHandlerPLE reg loc h := by
  unfold checkTransition at hok ⊢
  unfold specHandlerPLE
  dsimp only at hok ⊢
  by_cases h1 : ((h.getD "transitionTarget" (.obj [])).isObj &&
      pyEq ((h.getD "transitionTarget" (.obj [])).getD "type" .null) (.str "CUSTOM")) = true
  · rw [if_pos h1] at hok ⊢
    rw [if_pos h1]
    by_cases h2 : ((h.getD "transitionTarget" (.obj [])).getD "page" .null).truthy = true
    · rw [if_pos h2] at hok ⊢
      cases h3 : pyMemChk ((h.getD "transitionTarget" (.obj [])).getD "page" .null) pN with
      | error e => simp only [h3] at hok; simp at hok
      | ok b =>
        simp only [h3] at hok ⊢
        have hb : b = pyMem ((h.getD "transitionTarget" (.obj [])).getD "page" .null) reg := by
          unfold pyMemChk at h3
          split at h3
          · rw [← Except.ok.inj h3, hreg]
          · simp at h3
        cases hbv : b with
        | true =>
          rw [hbv] at hb
          rw [if_pos rfl, if_neg]
          simp [h2, ← hb]
        | false =>
          rw [hbv] at hb
          rw [if_neg (by simp), if_pos]
          simp [h2, ← hb]
    · rw [if_neg h2] at hok ⊢
      rw [if_neg (by simp [h2])]
  · rw [if_neg h1] at hok ⊢
    rw [if_neg h1]

/-- The predicate selecting `PageLinkError` findings. -/
def isPLE (e : Finding) : Bool := e.type == "PageLinkError"

theorem flatMap_congr_mem {α β : Type} {l : List α} {f g : α → List β}
    (h : ∀ x ∈ l, f x = g x) : l.flatMap f = l.flatMap g := by
  induction l with
  | nil => rfl
  | cons x xs ih =>
    rw [List.flatMap_cons, List.flatMap_cons, h x (by simp),
      ih (fun y hy => h y (by simp [hy]))]

theorem checkPage_filter (ctx : Json) (aI pN reg : List Json) (fn p : Json)
    (hok : (checkPage ctx aI pN fn p).2 = none)
    (hreg : ∀ x, pyMem x pN = pyMem x reg) :
    (checkPage ctx aI pN fn p).1.filter isPLE =
      (if wfPage p then
        (iterElems (p.getD "handlers" (.arr []))).flatMap (fun h =>
          if h.isObj then
            specHandlerPLE reg (pyStr fn ++ " > " ++ pyStr (p.getD "name" .null)) h
          else [])
      else []) := by
  unfold checkPage at hok ⊢
  by_cases hw : wfPage p
  · rw [if_pos hw] at hok ⊢
    rw [if_pos hw]
    cases h1 : pyIter (p.getD "handlers" (.arr [])) with
    | error e =>
      simp only [h1] at hok
      simp at hok
    | ok hs =>
      simp only [h1] at hok ⊢
      have hie : iterElems (p.getD "handlers" (.arr [])) = hs := by simp [iterElems, h1]
      rw [hie]
      obtain ⟨hok1, hok2⟩ := vseq_snd_none hok
      obtain ⟨hok2a, hok3⟩ := vseq_snd_none hok2
      rw [vseq_fst_of_none _ hok1, vseq_fst_of_none _ hok2a]
      rw [List.filter_append, List.filter_append]
      have htrans : (vloop (fun h => if h.isObj then checkTransition pN
          (pyStr fn ++ " > " ++ pyStr (p.getD "name" .null)) h else ([], none)) hs).1.filter
            isPLE =
          hs.flatMap (fun h => if h.isObj then
            specHandlerPLE reg (pyStr fn ++ " > " ++ pyStr (p.getD "name" .null)) h else []) := by
        rw [vloop_fst_of_none hok1, filter_flatMap]
        apply flatMap_congr_mem
        intro x hx
        have hxok := vloop_snd_none hok1 x hx
        by_cases hxo : x.isObj = true
        · rw [if_pos hxo] at hxok ⊢
          rw [if_pos hxo]
          rw [List.filter_eq_self.mpr (fun e he => by
            simpa [isPLE] using typeAll_checkTransition pN _ x e he)]
          exact checkTransition_spec pN reg _ x hxok hreg
        · rw [if_neg hxo] at hxok ⊢
          rw [if_neg hxo]
          rfl
      have hmiss : ((if (p.getD "handlers" .null).truthy then (([], none) : VRes)
          else ([mkHandlerMissing (pyStr fn ++ " > " ++ pyStr (p.getD "name" .null))],
            none)).1).filter isPLE = [] := by
        split
        · rfl
        · simp [isPLE, mkHandlerMissing]
      have hdet : ((vloop (fun h => checkHandlerDetail ctx aI
          (pyStr fn ++ " > " ++ pyStr (p.getD "name" .null)) h) hs).1).filter isPLE = [] := by
        rw [List.filter_eq_nil_iff]
        intro e he
        obtain ⟨x, _, hex⟩ := vloop_mem he
        simpa [isPLE] using typeNe_checkHandlerDetail ctx aI _ x e hex
      rw [htrans, hmiss, hdet]
      simp
  · rw [if_neg hw] at hok ⊢
    rw [if_neg hw]
    rfl

theorem checkFlow_filter (ctx : Json) (aI pN reg : List Json) (f : Json)
    (hok : (checkFlow ctx aI pN f).2 = none)
    (hreg : ∀ x, pyMem x pN = pyMem x reg) :
    (checkFlow ctx aI pN f).1.filter isPLE =
      (if wfFlow f then
        (iterElems (f.getD "pages" (.arr []))).flatMap (fun p =>
          if wfPage p then
            (iterElems (p.getD "handlers" (.arr []))).flatMap (fun h =>
              if h.isObj then
                specHandlerPLE reg
                  (pyStr (f.getD "name" .null) ++ " > " ++ pyStr (p.getD "name" .null)) h
              else [])
          else [])
      else []) := by
  unfold checkFlow at hok ⊢
  by_cases hw : wfFlow f
  · rw [if_pos hw] at hok ⊢
    rw [if_pos hw]
    cases h1 : pyIter (f.getD "pages" (.arr [])) with
    | error e =>
      simp only [h1] at hok
      simp at hok
    | ok ps =>
      simp only [h1] at hok ⊢
      have hie : iterElems (f.getD "pages" (.arr [])) = ps := by simp [iterElems, h1]
      rw [hie, vloop_fst_of_none hok, filter_flatMap]
      apply flatMap_congr_mem
      intro p hp
      have hpok := vloop_snd_none hok p hp
      exact checkPage_filter ctx aI pN reg (f.getD "name" .null) p hpok hreg
  · rw [if_neg hw] at hok ⊢
    rw [if_neg hw]
    rfl

theorem typeNe_customPart (cc : Json) :
    ∀ e ∈ (customPart cc).1, isPLE e = false := by
  intro e he
  unfold customPart at he
  split at he
  · cases h1 : pyIter cc with
    | error e1 => simp only [h1] at he; simp at he
    | ok items =>
      simp only [h1] at he
      obtain ⟨x, _, hex⟩ := List.mem_map.mp he
      rw [← hex]
      rfl
  · simp at he

/-- C1: page-link soundness.  For every document and custom-check argument on
which the run raises no internal exception, the sublist of `PageLinkError`
findings of `validate_bot_json` is exactly the spec-side list: the page-name
registry is built from every well-formed page across the whole document before
any link check runs, and one `PageLinkError` is emitted for a handler iff its
`transitionTarget.type` is `CUSTOM` and its `transitionTarget.page` is
non-empty and absent from that registry — so forward and cross-flow references
to existing pages produce no finding. -/
theorem c1_page_link_soundness (data cc : Json)
    (hok : (validateCore data cc).2 = none) :
    (validate_bot_json data cc).filter isPLE = specPageLinkErrors data := by
  have hv : validate_bot_json data cc = (validateCore data cc).1 := by
    unfold validate_bot_json
    cases hvc : validateCore data cc with
    | mk es o =>
      cases o with
      | none => rfl
      | some e =>
        rw [hvc] at hok
        simp at hok
  rw [hv]
  unfold validateCore at hok ⊢
  split
  case isTrue ht =>
    rw [spec_nil_of_falsy (by simpa using ht)]
    rfl
  case isFalse ht =>
    rw [if_neg ht] at hok
    cases h1 : pyContains data "context" with
    | error e1 =>
      simp only [h1] at hok
      simp at hok
    | ok b1 =>
      simp only [h1] at hok ⊢
      cases b1 with
      | false =>
        rw [spec_nil_of_no_context h1]
        rfl
      | true =>
        cases h2 : pySubscript data "context" with
        | error e2 =>
          simp only [h2] at hok
          simp at hok
        | ok ctx =>
          simp only [h2] at hok ⊢
          cases h3 : pyContains ctx "flows" with
          | error e3 =>
            simp only [h3] at hok
            simp at hok
          | ok b3 =>
            simp only [h3] at hok ⊢
            cases b3 with
            | false =>
              rw [spec_nil_of_no_flows h2 h3]
              rfl
            | true =>
              cases h4 : pySubscript ctx "flows" with
              | error e4 =>
                simp only [h4] at hok
                simp at hok
              | ok flowsJ =>
                simp only [h4] at hok ⊢
                cases flowsJ with
                | arr flows =>
                  cases h5 : computeAllIntents ctx with
                  | error e5 =>
                    simp only [h5] at hok
                    simp at hok
                  | ok aI =>
                    simp only [h5] at hok ⊢
                    cases h6 : collectFlowsLoop [] flows with
                    | error e6 =>
                      simp only [h6] at hok
                      simp at hok
                    | ok pN =>
                      simp only [h6] at hok ⊢
                      have hreg : ∀ x, pyMem x pN = pyMem x (specPageRegistry flows) := by
                        intro x
                        rw [collectFlowsLoop_mem h6 x]
                        simp [pyMem]
                      obtain ⟨hok1, hok2⟩ := vseq_snd_none hok
                      rw [vseq_fst_of_none _ hok1, List.filter_append]
                      have hcust : ((customPart cc).1).filter isPLE = [] := by
                        rw [List.filter_eq_nil_iff]
                        intro e he
                        simp [typeNe_customPart cc e he]
                      rw [hcust, List.append_nil]
                      rw [vloop_fst_of_none hok1, filter_flatMap]
                      have hmain : flows.flatMap
                          (fun f => ((checkFlow ctx aI pN f).1).filter isPLE) =
                          flows.flatMap (fun f =>
                            if wfFlow f then
                              (iterElems (f.getD "pages" (.arr []))).flatMap (fun p =>
                                if wfPage p then
                                  (iterElems (p.getD "handlers" (.arr []))).flatMap (fun h =>
                                    if h.isObj then
                                      specHandlerPLE (specPageRegistry flows)
                                        (pyStr (f.getD "name" .null) ++ " > " ++
                                          pyStr (p.getD "name" .null)) h
                                    else [])
                                else [])
                            else []) := by
                        apply flatMap_congr_mem
                        intro f hf
                        exact checkFlow_filter ctx aI pN (specPageRegistry flows) f
                          (vloop_snd_none hok1 f hf) hreg
                      rw [hmain]
                      unfold specPageLinkErrors
                      simp only [h2, h4]
                | null => simp only [h4] at hok ⊢; rw [spec_nil_of_flows_not_list h2 h4 rfl]; rfl
                | bool b => simp only [h4] at hok ⊢; rw [spec_nil_of_flows_not_list h2 h4 rfl]; rfl
                | num n => simp only [h4] at hok ⊢; rw [spec_nil_of_flows_not_list h2 h4 rfl]; rfl
                | str s => simp only [h4] at hok ⊢; rw [spec_nil_of_flows_not_list h2 h4 rfl]; rfl
                | obj fs => simp only [h4] at hok ⊢; rw [spec_nil_of_flows_not_list h2 h4 rfl]; rfl

/-- A handler holding only a `CUSTOM` transition target. -/
def linkHandler (target : String) : Json :=
  .obj [("transitionTarget", .obj [("type", .str "CUSTOM"), ("page", .str target)])]

/-- Witness document: a dangling link to `Ghost` and a forward link to `P2`. -/
def c1wDoc : Json :=
  .obj [("context", .obj [("flows", .arr
    [.obj [("name", .str "F1"), ("pages", .arr
      [.obj [("name", .str "P1"),
             ("handlers", .arr [linkHandler "Ghost", linkHandler "P2"])],
       .obj [("name", .str "P2"), ("handlers", .arr [])]])]])])]

/-- C1 witness: the theorem applied to a concrete document with one dangling
link and one forward reference; the run raises nothing, and the filtered
output matches the spec-side list (one finding, for `Ghost` only). -/
theorem c1_witness :
    (validateCore c1wDoc Json.null).2 = none ∧
    (validate_bot_json c1wDoc Json.null).filter isPLE = specPageLinkErrors c1wDoc :=
  ⟨rfl, c1_page_link_soundness c1wDoc Json.null rfl⟩

/-- A well-formed entity entry: a dict with a truthy name. -/
def wfNamed (j : Json) : Bool :=
  j.isObj && (j.getD "name" .null).truthy

theorem pySetAdd_len {s s2 : List Json} {x : Json} (h : pySetAdd s x = .ok s2) :
    s2.length ≤ s.length + 1 := by
  unfold pySetAdd at h
  split at h
  · have h2 : (if pyMem x s then s else s ++ [x]) = s2 := Except.ok.inj h
    by_cases hm : pyMem x s = true
    · rw [if_pos hm] at h2
      subst h2
      omega
    · rw [if_neg hm] at h2
      subst h2
      simp
  · simp at h

theorem countP_lt_length {l : List Json} {p : Json → Bool} (h : ∃ x ∈ l, p x = false) :
    l.countP p < l.length := by
  induction l with
  | nil => simp at h
  | cons a rest ih =>
    obtain ⟨x, hx, hpx⟩ := h
    rcases List.mem_cons.mp hx with hx | hx
    · subst hx
      rw [List.countP_cons, hpx]
      have := List.countP_le_length (l := rest) (p := p)
      simp
      omega
    · have := ih ⟨x, hx, hpx⟩
      rw [List.countP_cons]
      by_cases hpa : p a <;> simp [hpa] <;> omega

theorem entityRowsLoop_names_len (l : List Json) :
    ∀ rows names, ((entityRowsLoop rows names l).2.1).length ≤
      names.length + l.countP wfNamed := by
  induction l with
  | nil =>
    intro rows names
    simp [entityRowsLoop]
  | cons j rest ih =>
    intro rows names
    rw [entityRowsLoop]
    by_cases hw : (j.isObj && (j.getD "name" .null).truthy) = true
    · rw [if_pos hw]
      have hcnt : (j :: rest).countP wfNamed = rest.countP wfNamed + 1 := by
        simp [List.countP_cons, wfNamed, hw]
      cases hadd : pySetAdd names (j.getD "name" .null) with
      | error e =>
        simp only [hadd]
        simp [hcnt]
      | ok names2 =>
        simp only [hadd]
        have hlen := pySetAdd_len hadd
        have hev := ih
        by_cases hia : (j.getD "entityValues" (.arr [])).isArr = true
        · rw [if_pos hia]
          cases hvl : entityValuesLoop (j.getD "name" .null) rows
              (j.getD "entityValues" (.arr [])).asArr with
          | mk rows2 oe =>
            cases oe with
            | none =>
              simp only [hvl]
              calc ((entityRowsLoop rows2 names2 rest).2.1).length
                  ≤ names2.length + rest.countP wfNamed := ih rows2 names2
                _ ≤ names.length + 1 + rest.countP wfNamed := by omega
                _ = names.length + (j :: rest).countP wfNamed := by rw [hcnt]; omega
            | some e =>
              simp only [hvl]
              simp [hcnt]
              omega
        · rw [if_neg hia]
          calc ((entityRowsLoop rows names2 rest).2.1).length
              ≤ names2.length + rest.countP wfNamed := ih rows names2
            _ ≤ names.length + 1 + rest.countP wfNamed := by omega
            _ = names.length + (j :: rest).countP wfNamed := by rw [hcnt]; omega
    · rw [if_neg hw]
      have hcnt : (j :: rest).countP wfNamed = rest.countP wfNamed := by
        simp [List.countP_cons, wfNamed, hw]
      calc ((entityRowsLoop rows names rest).2.1).length
          ≤ names.length + rest.countP wfNamed := ih rows names
        _ = names.length + (j :: rest).countP wfNamed := by rw [hcnt]

/-- C10: a malformed entry (non-dict, or dict without a truthy name) inside
customEntities makes the dedup-by-set name count fall short of the raw list
length, so whenever the call returns a summary at all, the duplicate-entity
error row is present even though every well-formed name is distinct. -/
theorem c10_entity_dup (data ctx : Json) (ce : List Json) (res : SummaryResult)
    (h1 : data.truthy = true) (h2 : data.isObj = true)
    (h3 : data.hasKey "context" = true)
    (h4 : data.getD "context" .null = ctx) (h5 : ctx.isObj = true)
    (h6 : ctx.getD "customEntities" (.arr []) = .arr ce)
    (hbad : ∃ b ∈ ce, wfNamed b = false)
    (hgood : ∃ g ∈ ce, wfNamed g = true)
    (hres : get_intent_entity_summary data = .ok res) :
    "중복 Entity명 존재" ∈ res.entityErrors := by
  have hlen : ((entitiesPart ctx).2.1).length < ce.length := by
    unfold entitiesPart
    rw [h6]
    have hloop := entityRowsLoop_names_len ce [] []
    have hcnt := countP_lt_length hbad
    simp only [List.length_nil, Nat.zero_add] at hloop
    simp only [pyIter]
    omega
  unfold get_intent_entity_summary at hres
  rw [h1, h2, h3] at hres
  simp only [Bool.not_true, Bool.or_self, Bool.false_or, Bool.or_false,
    if_false, Bool.false_eq_true] at hres
  rw [h4, h5] at hres
  simp only [Bool.not_true, if_false, Bool.false_eq_true] at hres
  rw [h6] at hres
  simp only [pyLen] at hres
  rw [if_pos (by omega : ((entitiesPart ctx).2.1).length ≠ ce.length)] at hres
  cases hji : (if (unusedIntentsOf ctx).isEmpty then (.ok [] : Except String (List String)) else
      match pyJoin ", " (unusedIntentsOf ctx) with
      | .ok s => .ok ["미사용 Intent: " ++ s]
      | .error e => .error e) with
  | error e =>
    rw [hji] at hres
    cases hres
  | ok iu =>
    rw [hji] at hres
    cases hje : (if (unusedEntitiesOf ctx).isEmpty then (.ok [] : Except String (List String)) else
        match pyJoin ", " (unusedEntitiesOf ctx) with
        | .ok s => .ok ["미사용 Entity: " ++ s]
        | .error e => .error e) with
    | error e =>
      rw [hje] at hres
      cases hres
    | ok eu =>
      rw [hje] at hres
      have : res = ⟨(intentsPart ctx).1, (entitiesPart ctx).1,
          (if ((intentsPart ctx).2.1).length ≠ ((intentsPart ctx).1).length
            then ["중복 Intent명 존재"] else []) ++ iu,
          ["중복 Entity명 존재"] ++ eu⟩ := (Except.ok.inj hres).symm
      rw [this]
      exact List.mem_append_left _ (List.mem_singleton.mpr rfl)

/-- The C10 context: one well-formed entity and one junk string entry. -/
def c10wCtx : Json :=
  .obj [("customEntities", .arr [.obj [("name", .str "City")], .str "junk"])]

def c10wDoc : Json := .obj [("context", c10wCtx)]

def c10wCE : List Json := [.obj [("name", .str "City")], .str "junk"]

def c10wRes : SummaryResult := ⟨[], [], [], ["중복 Entity명 존재", "미사용 Entity: City"]⟩

/-- C10 witness: on the concrete document the call succeeds and the
duplicate-entity row is present. -/
theorem c10_witness :
    get_intent_entity_summary c10wDoc = .ok c10wRes ∧
    "중복 Entity명 존재" ∈ c10wRes.entityErrors :=
  ⟨rfl, c10_entity_dup c10wDoc c10wCtx c10wCE c10wRes rfl rfl rfl rfl rfl rfl
    ⟨Json.str "junk", by simp [c10wCE], rfl⟩
    ⟨Json.obj [("name", Json.str "City")], by simp [c10wCE], rfl⟩
    rfl⟩

/-! ### C8: the usage analyzer of `get_intent_entity_summary` -/

/-- Whether `m in cond` holds for a condition string: substring containment
for strings, false otherwise (a non-string would have raised instead). -/
def condContains (m : Json) (cond : String) : Bool :=
  match m with
  | .str t => containsSub t.data cond.data
  | _ => false

/-- Whether the handler names `n` through its `intentTrigger.name`. -/
def trigUse (n : Json) (h : Json) : Bool :=
  h.hasKey "intentTrigger" && (h.getD "intentTrigger" .null).isObj &&
    pyEq n ((h.getD "intentTrigger" .null).getD "name" .null)

/-- Raw contribution of the condition scan: some declared name equal to `n`
appears in the condition text. -/
def condScanAny (iN : List Json) (n : Json) (h : Json) : Bool :=
  match h.getD "conditionStatement" (.str "") with
  | .str cond => (Json.str cond).truthy &&
      iN.any (fun m => (m.truthy && condContains m cond) && pyEq n m)
  | _ => false

/-- Raw per-handler intent usage, mirroring `usedHandlerStep`. -/
def handlerUseRaw (iN : List Json) (n : Json) (h : Json) : Bool :=
  trigUse n h || condScanAny iN n h

/-- Raw usage of the declared name `n`, over the usage analyzer's traversal. -/
def specUsedIntentRaw (ctx : Json) (iN : List Json) (n : Json) : Bool :=
  (iterElems (ctx.getD "flows" (.arr []))).any (fun f => f.isObj &&
    ((f.getD "pages" (.arr [])).isArr &&
      (f.getD "pages" (.arr [])).asArr.any (fun p => p.isObj &&
        ((p.getD "handlers" (.arr [])).isArr &&
          (p.getD "handlers" (.arr [])).asArr.any (fun h =>
            h.isObj && handlerUseRaw iN n h)))))

/-- Modelled from the spec: `n` occurs as a substring of the handler's
(non-empty string) `conditionStatement` text. -/
def condUse (n : Json) (h : Json) : Bool :=
  match h.getD "conditionStatement" (.str "") with
  | .str cond => (Json.str cond).truthy && condContains n cond
  | _ => false

/-- Modelled from the spec: the handler uses `n` as its `intentTrigger.name`
or inside its condition text. -/
def specIntentUse (n : Json) (h : Json) : Bool :=
  trigUse n h || condUse n h

/-- Modelled from the spec: the declared name `n` is used somewhere in the
document (its `intentTrigger.name` occurrences or condition substrings). -/
def specUsedIntent (ctx : Json) (n : Json) : Bool :=
  (iterElems (ctx.getD "flows" (.arr []))).any (fun f => f.isObj &&
    ((f.getD "pages" (.arr [])).isArr &&
      (f.getD "pages" (.arr [])).asArr.any (fun p => p.isObj &&
        ((p.getD "handlers" (.arr [])).isArr &&
          (p.getD "handlers" (.arr [])).asArr.any (fun h =>
            h.isObj && specIntentUse n h)))))

/-- One step of set insertion without the hashability check. -/
def dedupInsert (acc : List Json) (n : Json) : List Json :=
  if pyMem n acc then acc else acc ++ [n]

/-- Modelled from the spec: the distinct members of a list, first occurrence
kept, under Python equality. -/
def pyDedup (l : List Json) : List Json :=
  l.foldl dedupInsert []

/-- The declared intent entries (`openIntents + userIntents`). -/
def declIntentItems (ctx : Json) : List Json :=
  match pyConcatIter (ctx.getD "openIntents" (.arr [])) (ctx.getD "userIntents" (.arr [])) with
  | .error _ => []
  | .ok items => items

/-- The declared intent names of the well-formed entries, in order. -/
def declIntentNames (ctx : Json) : List Json :=
  ((declIntentItems ctx).filter wfNamed).map (fun j => j.getD "name" .null)

theorem pyEq_comm (a b : Json) : pyEq a b = pyEq b a := by
  cases a <;> cases b <;> simp [pyEq, beq_iff_eq] <;> exact eq_comm

theorem pyEq_refl {a : Json} (h : a.hashable = true) : pyEq a a = true := by
  cases a <;> simp_all [pyEq, Json.hashable]

theorem usedNamesLoop_mem (cond : String) (l : List Json) :
    ∀ acc acc', usedNamesLoop cond acc l = (acc', none) → ∀ n,
      pyMem n acc' =
        (pyMem n acc || l.any (fun m => (m.truthy && condContains m cond) && pyEq n m)) := by
  induction l with
  | nil =>
    intro acc acc' h n
    rw [usedNamesLoop] at h
    cases h
    simp
  | cons m rest ih =>
    intro acc acc' h n
    rw [usedNamesLoop] at h
    by_cases hm : m.truthy = true
    · rw [if_pos hm] at h
      cases m with
      | str t =>
        simp only [pyInStrChk] at h
        by_cases hc : containsSub t.data cond.data = true
        · rw [hc] at h
          cases hadd : pySetAdd acc (.str t) with
          | error e =>
            rw [hadd] at h
            cases h
          | ok a2 =>
            rw [hadd] at h
            have := ih a2 acc' h n
            rw [this, pySetAdd_mem hadd n]
            simp only [List.any_cons]
            rw [condContains]
            rw [hm, hc]
            simp only [Bool.and_true, Bool.true_and]
            rw [Bool.or_assoc]
        · rw [Bool.not_eq_true] at hc
          rw [hc] at h
          have := ih acc acc' h n
          rw [this]
          simp only [List.any_cons]
          rw [condContains, hc]
          simp
      | null => simp only [pyInStrChk] at h; cases h
      | bool b => simp only [pyInStrChk] at h; cases h
      | num i => simp only [pyInStrChk] at h; cases h
      | arr xs => simp only [pyInStrChk] at h; cases h
      | obj fs => simp only [pyInStrChk] at h; cases h
    · rw [if_neg hm] at h
      have := ih acc acc' h n
      rw [this]
      simp only [List.any_cons]
      rw [Bool.not_eq_true] at hm
      rw [hm]
      simp

theorem usedHandlerStep_mem (iN eN uI uE : List Json) (h : Json) (uI2 uE2 : List Json)
    (hok : usedHandlerStep iN eN uI uE h = (uI2, uE2, none)) (n : Json) :
    pyMem n uI2 = (pyMem n uI || handlerUseRaw iN n h) := by
  rw [usedHandlerStep] at hok
  dsimp only at hok
  split at hok
  · exact absurd hok (by simp)
  · rename_i uI1 heq
    have htrig : pyMem n uI1 = (pyMem n uI || trigUse n h) := by
      by_cases hk : h.hasKey "intentTrigger" = true
      · rw [if_pos hk] at heq
        by_cases hio : (h.getD "intentTrigger" .null).isObj = true
        · rw [if_pos hio] at heq
          cases hadd : pySetAdd uI ((h.getD "intentTrigger" .null).getD "name" .null) with
          | error e =>
            rw [hadd] at heq
            exact absurd heq (by simp)
          | ok u2 =>
            rw [hadd] at heq
            have hu : u2 = uI1 := (Prod.mk.injEq _ _ _ _ ▸ heq).1
            subst hu
            rw [pySetAdd_mem hadd n, trigUse, hk, hio]
            simp
        · rw [if_neg hio] at heq
          have hu : uI = uI1 := (Prod.mk.injEq _ _ _ _ ▸ heq).1
          subst hu
          rw [trigUse, hk]
          simp only [Bool.not_eq_true] at hio
          rw [hio]
          simp
      · rw [if_neg hk] at heq
        have hu : uI = uI1 := (Prod.mk.injEq _ _ _ _ ▸ heq).1
        subst hu
        rw [trigUse]
        simp only [Bool.not_eq_true] at hk
        rw [hk]
        simp
    clear heq
    cases hcj : h.getD "conditionStatement" (.str "") with
    | str cond =>
      rw [hcj] at hok
      by_cases ht : (Json.str cond).truthy = true
      · rw [ht] at hok
        simp only [Json.isStr, Bool.and_true, if_true] at hok
        cases hu1 : usedNamesLoop cond uI1 iN with
        | mk uIa oea =>
          rw [hu1] at hok
          cases oea with
          | some e => exact absurd hok (by simp)
          | none =>
            have huI : uIa = uI2 := (Prod.mk.injEq _ _ _ _ ▸ hok).1
            have hsnd := (Prod.mk.injEq _ _ _ _ ▸ hok).2
            have hoe : (usedNamesLoop cond uE eN).2 = none :=
              (Prod.mk.injEq _ _ _ _ ▸ hsnd).2
            subst huI
            rw [usedNamesLoop_mem cond iN uI1 uIa hu1 n, htrig,
              handlerUseRaw, condScanAny, hcj]
            simp only [ht, Bool.true_and]
            rw [Bool.or_assoc]
      · simp only [Bool.not_eq_true] at ht
        rw [ht] at hok
        simp only [Bool.false_and, Bool.and_false, if_false] at hok
        have huI : uI1 = uI2 := (Prod.mk.injEq _ _ _ _ ▸ hok).1
        subst huI
        rw [htrig, handlerUseRaw, condScanAny, hcj]
        simp only [ht, Bool.false_and, Bool.or_false]
    | null =>
      rw [hcj] at hok
      simp only [Json.isStr, Bool.and_false, if_false] at hok
      have huI : uI1 = uI2 := (Prod.mk.injEq _ _ _ _ ▸ hok).1
      subst huI
      rw [htrig, handlerUseRaw, condScanAny, hcj]
      simp
    | bool b =>
      rw [hcj] at hok
      simp only [Json.isStr, Bool.and_false, if_false] at hok
      have huI : uI1 = uI2 := (Prod.mk.injEq _ _ _ _ ▸ hok).1
      subst huI
      rw [htrig, handlerUseRaw, condScanAny, hcj]
      simp
    | num i =>
      rw [hcj] at hok
      simp only [Json.isStr, Bool.and_false, if_false] at hok
      have huI : uI1 = uI2 := (Prod.mk.injEq _ _ _ _ ▸ hok).1
      subst huI
      rw [htrig, handlerUseRaw, condScanAny, hcj]
      simp
    | arr xs =>
      rw [hcj] at hok
      simp only [Json.isStr, Bool.and_false, if_false] at hok
      have huI : uI1 = uI2 := (Prod.mk.injEq _ _ _ _ ▸ hok).1
      subst huI
      rw [htrig, handlerUseRaw, condScanAny, hcj]
      simp
    | obj fs =>
      rw [hcj] at hok
      simp only [Json.isStr, Bool.and_false, if_false] at hok
      have huI : uI1 = uI2 := (Prod.mk.injEq _ _ _ _ ▸ hok).1
      subst huI
      rw [htrig, handlerUseRaw, condScanAny, hcj]
      simp

theorem usedHandlersLoop_mem (iN eN : List Json) (l : List Json) :
    ∀ uI uE uI2 uE2, usedHandlersLoop iN eN uI uE l = (uI2, uE2, none) → ∀ n,
      pyMem n uI2 = (pyMem n uI || l.any (fun h => h.isObj && handlerUseRaw iN n h)) := by
  induction l with
  | nil =>
    intro uI uE uI2 uE2 h n
    rw [usedHandlersLoop] at h
    have : uI = uI2 := (Prod.mk.injEq _ _ _ _ ▸ h).1
    subst this
    simp
  | cons hd rest ih =>
    intro uI uE uI2 uE2 h n
    rw [usedHandlersLoop] at h
    by_cases ho : hd.isObj = true
    · rw [if_pos ho] at h
      cases hstep : usedHandlerStep iN eN uI uE hd with
      | mk uIa rest2 =>
        rw [hstep] at h
        cases rest2 with
        | mk uEa oe =>
          cases oe with
          | some e => exact absurd h (by simp)
          | none =>
            have := ih uIa uEa uI2 uE2 h n
            rw [this, usedHandlerStep_mem iN eN uI uE hd uIa uEa hstep n]
            simp only [List.any_cons, ho, Bool.true_and]
            rw [Bool.or_assoc]
    · rw [if_neg ho] at h
      have := ih uI uE uI2 uE2 h n
      rw [this]
      simp only [Bool.not_eq_true] at ho
      simp [ho]

theorem usedPagesLoop_mem (iN eN : List Json) (l : List Json) :
    ∀ uI uE uI2 uE2, usedPagesLoop iN eN uI uE l = (uI2, uE2, none) → ∀ n,
      pyMem n uI2 = (pyMem n uI || l.any (fun p => p.isObj &&
        ((p.getD "handlers" (.arr [])).isArr &&
          (p.getD "handlers" (.arr [])).asArr.any (fun h =>
            h.isObj && handlerUseRaw iN n h)))) := by
  induction l with
  | nil =>
    intro uI uE uI2 uE2 h n
    rw [usedPagesLoop] at h
    have : uI = uI2 := (Prod.mk.injEq _ _ _ _ ▸ h).1
    subst this
    simp
  | cons p rest ih =>
    intro uI uE uI2 uE2 h n
    rw [usedPagesLoop] at h
    by_cases ho : p.isObj = true
    · rw [if_pos ho] at h
      dsimp only at h
      by_cases ha : (p.getD "handlers" (.arr [])).isArr = true
      · rw [if_pos ha] at h
        cases hstep : usedHandlersLoop iN eN uI uE (p.getD "handlers" (.arr [])).asArr with
        | mk uIa rest2 =>
          rw [hstep] at h
          cases rest2 with
          | mk uEa oe =>
            cases oe with
            | some e => exact absurd h (by simp)
            | none =>
              have := ih uIa uEa uI2 uE2 h n
              rw [this, usedHandlersLoop_mem iN eN _ uI uE uIa uEa hstep n]
              simp only [List.any_cons, ho, ha, Bool.true_and]
              rw [Bool.or_assoc]
      · rw [if_neg ha] at h
        have := ih uI uE uI2 uE2 h n
        rw [this]
        simp only [Bool.not_eq_true] at ha
        simp [List.any_cons, ha]
    · rw [if_neg ho] at h
      have := ih uI uE uI2 uE2 h n
      rw [this]
      simp only [Bool.not_eq_true] at ho
      simp [ho]

theorem usedFlowsLoop_mem (iN eN : List Json) (l : List Json) :
    ∀ uI uE uI2 uE2, usedFlowsLoop iN eN uI uE l = (uI2, uE2, none) → ∀ n,
      pyMem n uI2 = (pyMem n uI || l.any (fun f => f.isObj &&
        ((f.getD "pages" (.arr [])).isArr &&
          (f.getD "pages" (.arr [])).asArr.any (fun p => p.isObj &&
            ((p.getD "handlers" (.arr [])).isArr &&
              (p.getD "handlers" (.arr [])).asArr.any (fun h =>
                h.isObj && handlerUseRaw iN n h)))))) := by
  induction l with
  | nil =>
    intro uI uE uI2 uE2 h n
    rw [usedFlowsLoop] at h
    have : uI = uI2 := (Prod.mk.injEq _ _ _ _ ▸ h).1
    subst this
    simp
  | cons f rest ih =>
    intro uI uE uI2 uE2 h n
    rw [usedFlowsLoop] at h
    by_cases ho : f.isObj = true
    · rw [if_pos ho] at h
      dsimp only at h
      by_cases ha : (f.getD "pages" (.arr [])).isArr = true
      · rw [if_pos ha] at h
        cases hstep : usedPagesLoop iN eN uI uE (f.getD "pages" (.arr [])).asArr with
        | mk uIa rest2 =>
          rw [hstep] at h
          cases rest2 with
          | mk uEa oe =>
            cases oe with
            | some e => exact absurd h (by simp)
            | none =>
              have := ih uIa uEa uI2 uE2 h n
              rw [this, usedPagesLoop_mem iN eN _ uI uE uIa uEa hstep n]
              simp only [List.any_cons, ho, ha, Bool.true_and]
              rw [Bool.or_assoc]
      · rw [if_neg ha] at h
        have := ih uI uE uI2 uE2 h n
        rw [this]
        simp only [Bool.not_eq_true] at ha
        simp [List.any_cons, ha]
    · rw [if_neg ho] at h
      have := ih uI uE uI2 uE2 h n
      rw [this]
      simp only [Bool.not_eq_true] at ho
      simp [ho]

theorem usagePart_mem (ctx : Json) (iN eN : List Json)
    (hU : (usagePart ctx iN eN).2.2 = none) (n : Json) :
    pyMem n (usagePart ctx iN eN).1 = specUsedIntentRaw ctx iN n := by
  rw [usagePart] at hU ⊢
  cases hiter : pyIter (ctx.getD "flows" (.arr [])) with
  | error e =>
    rw [hiter] at hU
    dsimp only at hU
    cases hU
  | ok fl =>
    rw [hiter] at hU
    dsimp only at hU ⊢
    cases hloop : usedFlowsLoop iN eN [] [] fl with
    | mk uI2 rest2 =>
      cases rest2 with
      | mk uE2 oe =>
        rw [hloop] at hU
        cases oe with
        | some e => cases hU
        | none =>
          have := usedFlowsLoop_mem iN eN fl [] [] uI2 uE2 hloop n
          dsimp only
          rw [this, specUsedIntentRaw, iterElems, hiter]
          simp [pyMem]

theorem pySetAdd_sub {s s2 : List Json} {x : Json} (h : pySetAdd s x = .ok s2) :
    ∀ y ∈ s2, y ∈ s ∨ y = x := by
  unfold pySetAdd at h
  split at h
  · have h2 : (if pyMem x s then s else s ++ [x]) = s2 := Except.ok.inj h
    by_cases hm : pyMem x s = true
    · rw [if_pos hm] at h2
      subst h2
      exact fun y hy => Or.inl hy
    · rw [if_neg hm] at h2
      subst h2
      intro y hy
      rcases List.mem_append.mp hy with hy | hy
      · exact Or.inl hy
      · exact Or.inr (List.mem_singleton.mp hy)
  · cases h

theorem pySetAdd_hashable {s s2 : List Json} {x : Json} (h : pySetAdd s x = .ok s2) :
    x.hashable = true := by
  unfold pySetAdd at h
  split at h
  · assumption
  · cases h

theorem pySetAdd_pairwise {s s2 : List Json} {x : Json} (h : pySetAdd s x = .ok s2)
    (hp : s.Pairwise (fun a b => pyEq a b = false)) :
    s2.Pairwise (fun a b => pyEq a b = false) := by
  unfold pySetAdd at h
  split at h
  · have h2 : (if pyMem x s then s else s ++ [x]) = s2 := Except.ok.inj h
    by_cases hm : pyMem x s = true
    · rw [if_pos hm] at h2
      subst h2
      exact hp
    · rw [if_neg hm] at h2
      subst h2
      rw [List.pairwise_append]
      refine ⟨hp, List.pairwise_singleton _ _, ?_⟩
      intro a ha b hb
      rw [List.mem_singleton.mp hb]
      have : pyEq x a = false := by
        rw [Bool.not_eq_true] at hm
        rw [pyMem] at hm
        have := List.any_eq_false.mp hm a ha
        rwa [Bool.not_eq_true] at this
      rw [pyEq_comm]
      exact this
  · cases h

theorem any_pyEq_self (p : Json → Bool) {l : List Json} {n : Json}
    (hp : l.Pairwise (fun a b => pyEq a b = false)) (hn : n ∈ l)
    (hh : n.hashable = true) :
    l.any (fun m => p m && pyEq n m) = p n := by
  have hsymm : Symmetric (fun a b : Json => pyEq a b = false) := by
    intro a b hab
    rw [pyEq_comm]
    exact hab
  cases hpn : p n with
  | true =>
    apply List.any_eq_true.mpr
    exact ⟨n, hn, by rw [hpn, pyEq_refl hh]; rfl⟩
  | false =>
    apply List.any_eq_false.mpr
    intro m hm
    by_cases hmn : m = n
    · subst hmn
      rw [hpn]
      simp
    · have : pyEq n m = false := hp.forall hsymm hn hm (fun he => hmn he.symm)
      rw [this]
      simp

theorem pySetAdd_ok_eq {s s2 : List Json} {x : Json} (h : pySetAdd s x = .ok s2) :
    s2 = dedupInsert s x := by
  unfold pySetAdd at h
  split at h
  · exact (Except.ok.inj h).symm
  · cases h

theorem intentRowsLoop_names_inv (l : List Json) :
    ∀ rows names,
      (names.Pairwise (fun a b => pyEq a b = false) ∧
       ∀ y ∈ names, y.truthy = true ∧ y.hashable = true) →
      ((intentRowsLoop rows names l).2.1.Pairwise (fun a b => pyEq a b = false) ∧
       ∀ y ∈ (intentRowsLoop rows names l).2.1, y.truthy = true ∧ y.hashable = true) := by
  induction l with
  | nil =>
    intro rows names hinv
    rw [intentRowsLoop]
    exact hinv
  | cons j rest ih =>
    intro rows names hinv
    rw [intentRowsLoop]
    by_cases hw : (j.isObj && (j.getD "name" .null).truthy) = true
    · rw [if_pos hw]
      cases hadd : pySetAdd names (j.getD "name" .null) with
      | error e => exact hinv
      | ok names2 =>
        have hinv2 : names2.Pairwise (fun a b => pyEq a b = false) ∧
            ∀ y ∈ names2, y.truthy = true ∧ y.hashable = true := by
          refine ⟨pySetAdd_pairwise hadd hinv.1, ?_⟩
          intro y hy
          rcases pySetAdd_sub hadd y hy with hy2 | hy2
          · exact hinv.2 y hy2
          · subst hy2
            exact ⟨(Bool.and_eq_true _ _ ▸ hw).2, pySetAdd_hashable hadd⟩
        dsimp only
        cases hjs : (if (j.getD "sentences" (.arr [])).isArr then
            pyJoin ", " ((j.getD "sentences" (.arr [])).asArr.take 3) else .ok "") with
        | error e => exact hinv2
        | ok ex => exact ih _ names2 hinv2
    · rw [if_neg hw]
      exact ih rows names hinv

theorem intentRowsLoop_char (l : List Json) :
    ∀ rows names, (intentRowsLoop rows names l).2.2 = none →
      (intentRowsLoop rows names l).1.length = rows.length + l.countP wfNamed ∧
      (intentRowsLoop rows names l).2.1 =
        ((l.filter wfNamed).map (fun j => j.getD "name" .null)).foldl dedupInsert names := by
  induction l with
  | nil =>
    intro rows names _
    rw [intentRowsLoop]
    simp
  | cons j rest ih =>
    intro rows names hok
    rw [intentRowsLoop] at hok ⊢
    by_cases hw : (j.isObj && (j.getD "name" .null).truthy) = true
    · rw [if_pos hw] at hok ⊢
      cases hadd : pySetAdd names (j.getD "name" .null) with
      | error e =>
        rw [hadd] at hok
        dsimp only at hok
        cases hok
      | ok names2 =>
        rw [hadd] at hok
        dsimp only at hok ⊢
        cases hjs : (if (j.getD "sentences" (.arr [])).isArr then
            pyJoin ", " ((j.getD "sentences" (.arr [])).asArr.take 3) else .ok "") with
        | error e =>
          rw [hjs] at hok
          dsimp only at hok
          cases hok
        | ok ex =>
          rw [hjs] at hok
          dsimp only at hok ⊢
          have := ih (rows ++ [⟨j.getD "name" .null, ex⟩]) names2 hok
          refine ⟨?_, ?_⟩
          · rw [this.1]
            have hcnt : (j :: rest).countP wfNamed = rest.countP wfNamed + 1 := by
              simp [List.countP_cons, wfNamed, hw]
            rw [hcnt]
            simp
            omega
          · rw [this.2]
            have hf : (j :: rest).filter wfNamed = j :: rest.filter wfNamed := by
              simp [List.filter_cons, wfNamed, hw]
            rw [hf, List.map_cons, List.foldl_cons, pySetAdd_ok_eq hadd]
    · rw [if_neg hw] at hok ⊢
      have := ih rows names hok
      refine ⟨?_, ?_⟩
      · rw [this.1]
        have hcnt : (j :: rest).countP wfNamed = rest.countP wfNamed := by
          simp [List.countP_cons, wfNamed, hw]
        rw [hcnt]
      · rw [this.2]
        have hf : (j :: rest).filter wfNamed = rest.filter wfNamed := by
          simp [List.filter_cons, wfNamed, hw]
        rw [hf]

theorem intentsPart_char (ctx : Json) (hI : (intentsPart ctx).2.2 = none) :
    (intentsPart ctx).1.length = (declIntentItems ctx).countP wfNamed ∧
    (intentsPart ctx).2.1 = pyDedup (declIntentNames ctx) := by
  rw [intentsPart] at hI ⊢
  rw [declIntentNames, declIntentItems]
  cases hcc : pyConcatIter (ctx.getD "openIntents" (.arr []))
      (ctx.getD "userIntents" (.arr [])) with
  | error e =>
    rw [hcc] at hI
    cases hI
  | ok items =>
    rw [hcc] at hI
    dsimp only at hI ⊢
    have := intentRowsLoop_char items [] [] hI
    rw [this.1, this.2, pyDedup]
    simp

theorem intentsPart_inv (ctx : Json) :
    (intentsPart ctx).2.1.Pairwise (fun a b => pyEq a b = false) ∧
    ∀ y ∈ (intentsPart ctx).2.1, y.truthy = true ∧ y.hashable = true := by
  rw [intentsPart]
  cases hcc : pyConcatIter (ctx.getD "openIntents" (.arr []))
      (ctx.getD "userIntents" (.arr [])) with
  | error e => simp
  | ok items =>
    dsimp only
    exact intentRowsLoop_names_inv items [] [] ⟨List.Pairwise.nil, by simp⟩

theorem foldl_dedupInsert_len (l : List Json) :
    ∀ acc, (l.foldl dedupInsert acc).length ≤ acc.length + l.length := by
  induction l with
  | nil => intro acc; simp
  | cons x rest ih =>
    intro acc
    rw [List.foldl_cons]
    have h1 : (dedupInsert acc x).length ≤ acc.length + 1 := by
      rw [dedupInsert]
      by_cases hm : pyMem x acc = true
      · rw [if_pos hm]; omega
      · rw [if_neg hm]; simp
    have := ih (dedupInsert acc x)
    simp only [List.length_cons]
    omega

theorem handlerUseRaw_eq (iN : List Json) (n : Json)
    (hp : iN.Pairwise (fun a b => pyEq a b = false))
    (hmem : ∀ y ∈ iN, y.truthy = true ∧ y.hashable = true)
    (hn : n ∈ iN) (h : Json) :
    handlerUseRaw iN n h = specIntentUse n h := by
  rw [handlerUseRaw, specIntentUse]
  cases hcj : h.getD "conditionStatement" (.str "") with
  | str cond =>
    rw [condScanAny, condUse, hcj]
    dsimp only
    rw [any_pyEq_self (fun m => m.truthy && condContains m cond) hp hn (hmem n hn).2]
    rw [(hmem n hn).1]
    simp
  | null => rw [condScanAny, condUse, hcj]
  | bool b => rw [condScanAny, condUse, hcj]
  | num i => rw [condScanAny, condUse, hcj]
  | arr xs => rw [condScanAny, condUse, hcj]
  | obj fs => rw [condScanAny, condUse, hcj]

theorem specUsedRaw_eq (ctx : Json) (iN : List Json) (n : Json)
    (hp : iN.Pairwise (fun a b => pyEq a b = false))
    (hmem : ∀ y ∈ iN, y.truthy = true ∧ y.hashable = true)
    (hn : n ∈ iN) :
    specUsedIntentRaw ctx iN n = specUsedIntent ctx n := by
  have hh : ∀ h, handlerUseRaw iN n h = specIntentUse n h :=
    handlerUseRaw_eq iN n hp hmem hn
  simp only [specUsedIntentRaw, specUsedIntent, hh]

theorem unusedIntents_char (ctx : Json)
    (hI : (intentsPart ctx).2.2 = none)
    (hU : (usagePart ctx (intentsPart ctx).2.1 (entitiesPart ctx).2.1).2.2 = none)
    (n : Json) :
    n ∈ unusedIntentsOf ctx ↔
      (n ∈ pyDedup (declIntentNames ctx) ∧ specUsedIntent ctx n = false) := by
  have hiN := (intentsPart_char ctx hI).2
  have hinv := intentsPart_inv ctx
  rw [unusedIntentsOf]
  constructor
  · intro hmem
    have h1 := (List.mem_filter.mp hmem).1
    have h2 := (List.mem_filter.mp hmem).2
    refine ⟨hiN ▸ h1, ?_⟩
    rw [← specUsedRaw_eq ctx (intentsPart ctx).2.1 n hinv.1 hinv.2 h1,
        ← usagePart_mem ctx (intentsPart ctx).2.1 (entitiesPart ctx).2.1 hU n]
    simpa using h2
  · rintro ⟨hn, hs⟩
    have h1 : n ∈ (intentsPart ctx).2.1 := hiN ▸ hn
    apply List.mem_filter.mpr
    refine ⟨h1, ?_⟩
    have hm : pyMem n ((usagePart ctx (intentsPart ctx).2.1 (entitiesPart ctx).2.1).1)
        = false := by
      rw [usagePart_mem ctx (intentsPart ctx).2.1 (entitiesPart ctx).2.1 hU n,
        specUsedRaw_eq ctx (intentsPart ctx).2.1 n hinv.1 hinv.2 h1, hs]
    simp [hm]

theorem dup_ne_unused (s : String) : "중복 Intent명 존재" ≠ "미사용 Intent: " ++ s := by
  intro h
  have hd := congrArg String.data h
  rw [data_append] at hd
  have h1 : ("중복 Intent명 존재").data = '중' :: ("복 Intent명 존재").data := rfl
  have h2 : ("미사용 Intent: ").data = '미' :: ("사용 Intent: ").data := rfl
  rw [h1, h2, List.cons_append] at hd
  exact absurd (List.cons.inj hd).1 (by decide)

/-- C8: under a well-shaped run (document gates pass, the intents pass and
the usage pass raise nothing, and the call returns a summary), the
duplicate-intent row appears exactly when the distinct declared names are
fewer than the well-formed declared entries, and a declared name is listed
unused exactly when it is never an `intentTrigger.name` and never a substring
of a handler's `conditionStatement` text. -/
theorem c8_usage_findings (data ctx : Json) (res : SummaryResult)
    (h1 : data.truthy = true) (h2 : data.isObj = true)
    (h3 : data.hasKey "context" = true)
    (h4 : data.getD "context" .null = ctx) (h5 : ctx.isObj = true)
    (hI : (intentsPart ctx).2.2 = none)
    (hU : (usagePart ctx (intentsPart ctx).2.1 (entitiesPart ctx).2.1).2.2 = none)
    (hres : get_intent_entity_summary data = .ok res) :
    (("중복 Intent명 존재" ∈ res.intentErrors) ↔
      (pyDedup (declIntentNames ctx)).length < (declIntentItems ctx).countP wfNamed)
    ∧ (∀ n, n ∈ unusedIntentsOf ctx ↔
        (n ∈ pyDedup (declIntentNames ctx) ∧ specUsedIntent ctx n = false))
    ∧ ((∃ s, ("미사용 Intent: " ++ s) ∈ res.intentErrors) ↔ unusedIntentsOf ctx ≠ []) := by
  have hchar := intentsPart_char ctx hI
  have hle : (pyDedup (declIntentNames ctx)).length ≤
      (declIntentItems ctx).countP wfNamed := by
    have h1l := foldl_dedupInsert_len (declIntentNames ctx) []
    rw [pyDedup]
    have h2l : (declIntentNames ctx).length =
        (declIntentItems ctx).countP wfNamed := by
      rw [declIntentNames, List.length_map, List.countP_eq_length_filter]
    simp only [List.length_nil] at h1l
    omega
  unfold get_intent_entity_summary at hres
  rw [h1, h2, h3] at hres
  simp only [Bool.not_true, Bool.or_self, Bool.false_or, Bool.or_false,
    if_false, Bool.false_eq_true] at hres
  rw [h4, h5] at hres
  simp only [Bool.not_true, if_false, Bool.false_eq_true] at hres
  cases hji : (if (unusedIntentsOf ctx).isEmpty then (.ok [] : Except String (List String)) else
      match pyJoin ", " (unusedIntentsOf ctx) with
      | .ok s => .ok ["미사용 Intent: " ++ s]
      | .error e => .error e) with
  | error e =>
    rw [hji] at hres
    cases hres
  | ok iu =>
    rw [hji] at hres
    cases hje : (if (unusedEntitiesOf ctx).isEmpty then (.ok [] : Except String (List String)) else
        match pyJoin ", " (unusedEntitiesOf ctx) with
        | .ok s => .ok ["미사용 Entity: " ++ s]
        | .error e => .error e) with
    | error e =>
      rw [hje] at hres
      cases hres
    | ok eu =>
      rw [hje] at hres
      have hresE : res.intentErrors =
          (if ((intentsPart ctx).2.1).length ≠ ((intentsPart ctx).1).length
            then ["중복 Intent명 존재"] else []) ++ iu := by
        rw [(Except.ok.inj hres).symm]
      have hiu : ((unusedIntentsOf ctx).isEmpty = true ∧ iu = []) ∨
          ((unusedIntentsOf ctx).isEmpty = false ∧
            ∃ s, iu = ["미사용 Intent: " ++ s]) := by
        by_cases hie : (unusedIntentsOf ctx).isEmpty = true
        · rw [if_pos hie] at hji
          exact Or.inl ⟨hie, (Except.ok.inj hji).symm⟩
        · rw [if_neg hie] at hji
          cases hjoin : pyJoin ", " (unusedIntentsOf ctx) with
          | error e =>
            rw [hjoin] at hji
            cases hji
          | ok s =>
            rw [hjoin] at hji
            exact Or.inr ⟨Bool.not_eq_true _ ▸ hie, s, (Except.ok.inj hji).symm⟩
      refine ⟨?_, unusedIntents_char ctx hI hU, ?_⟩
      · rw [hresE]
        by_cases hAB : (pyDedup (declIntentNames ctx)).length <
            (declIntentItems ctx).countP wfNamed
        · have hne : ((intentsPart ctx).2.1).length ≠ ((intentsPart ctx).1).length := by
            rw [hchar.1, hchar.2]
            omega
          rw [if_pos hne]
          simp [hAB]
        · have heq : ((intentsPart ctx).2.1).length = ((intentsPart ctx).1).length := by
            rw [hchar.1, hchar.2]
            omega
          rw [if_neg (by omega : ¬((intentsPart ctx).2.1).length ≠ ((intentsPart ctx).1).length)]
          simp only [List.nil_append]
          constructor
          · intro hmem
            exfalso
            rcases hiu with ⟨_, hiu⟩ | ⟨_, s, hiu⟩
            · rw [hiu] at hmem
              simp at hmem
            · rw [hiu] at hmem
              exact dup_ne_unused s (List.mem_singleton.mp hmem)
          · intro hlt
            omega
      · rw [hresE]
        rcases hiu with ⟨hie, hiu⟩ | ⟨hie, s, hiu⟩
        · subst hiu
          constructor
          · rintro ⟨s, hs⟩
            exfalso
            rw [List.append_nil] at hs
            by_cases hne : ((intentsPart ctx).2.1).length ≠ ((intentsPart ctx).1).length
            · rw [if_pos hne] at hs
              exact dup_ne_unused s (List.mem_singleton.mp hs).symm
            · rw [if_neg hne] at hs
              simp at hs
          · intro hne
            exact absurd (List.isEmpty_iff.mp hie) hne
        · subst hiu
          constructor
          · intro _
            intro hnil
            rw [hnil] at hie
            simp at hie
          · intro _
            exact ⟨s, List.mem_append_right _ (List.mem_singleton.mpr rfl)⟩

/-- The C8 context: two declared intents both named Greeting, never used. -/
def c8wCtx : Json :=
  .obj [("openIntents", .arr [.obj [("name", .str "Greeting")],
                              .obj [("name", .str "Greeting")]])]

def c8wDoc : Json := .obj [("context", c8wCtx)]

def c8wRes : SummaryResult :=
  ⟨[⟨.str "Greeting", ""⟩, ⟨.str "Greeting", ""⟩], [],
   ["중복 Intent명 존재", "미사용 Intent: Greeting"], []⟩

/-- C8 witness: the concrete Scenario-D document, on which the call returns
both the duplicate-intent row and the unused-intent row. -/
theorem c8_witness :
    (("중복 Intent명 존재" ∈ c8wRes.intentErrors) ↔
      (pyDedup (declIntentNames c8wCtx)).length < (declIntentItems c8wCtx).countP wfNamed)
    ∧ (∀ n, n ∈ unusedIntentsOf c8wCtx ↔
        (n ∈ pyDedup (declIntentNames c8wCtx) ∧ specUsedIntent c8wCtx n = false))
    ∧ ((∃ s, ("미사용 Intent: " ++ s) ∈ c8wRes.intentErrors) ↔ unusedIntentsOf c8wCtx ≠ []) :=
  c8_usage_findings c8wDoc c8wCtx c8wRes rfl rfl rfl rfl rfl rfl rfl rfl
